import Mathlib

/-!
# Verification of the multi-LLM extraction-and-consensus pipeline

This file gives a shallow embedding, in Lean 4, of the pure core of the
repository's multi-backend extraction pipeline:

* `src/modules/llm/url_extractor.py` — URL cleaning, validation and the
  four-tier cascading extraction control flow;
* `src/modules/llm/information_extractor.py` — brand-name normalization;
* `src/modules/llm/sentiment_analyzer.py` — sentiment-block parsing,
  fallback generation and the majority-vote consensus;
* `src/modules/llm/multi_llm_analyzer.py` — cross-backend consolidation
  and the pipeline orchestrator;
* `src/case_studies/llm_source_extractor.py` — extraction-confidence
  scoring and the advanced URL validation step.

Modelling conventions:

* Python `str` is Lean `String` (operated on through `List Char`);
  `str.lower` is modelled for ASCII and Latin-1 letters, which covers
  every string the repository manipulates;
* Python floats are modelled as `ℚ` (the numeric literals involved are
  small decimal constants, far from any rounding boundary);
* Python dicts keyed by strings are association lists in insertion
  order, with `dinsert` reproducing dict assignment semantics;
* network calls (LLM queries, HTTP accessibility probes) are replaced by
  explicit parameters holding the value the call would return.
-/

/-! ## Python string primitives -/

/-- The `\s` class of Python `re` and the default `str.strip` character
set, ASCII range: space, tab, newline, carriage return, vertical tab,
form feed. -/
def pyWs (c : Char) : Bool :=
  c.toNat = 32 ∨ c.toNat = 9 ∨ c.toNat = 10 ∨ c.toNat = 13 ∨
    c.toNat = 11 ∨ c.toNat = 12

/-- `str.lower` on one character, for ASCII (`A`..`Z`, 65..90) and
Latin-1 letters (`À`..`Þ`, 192..222, except `×` = 215), which map down
by 32 as in Unicode. -/
def pyLowerChar (c : Char) : Char :=
  if 65 ≤ c.toNat ∧ c.toNat ≤ 90 then Char.ofNat (c.toNat + 32)
  else if 192 ≤ c.toNat ∧ c.toNat ≤ 222 ∧ c.toNat ≠ 215 then
    Char.ofNat (c.toNat + 32)
  else c

/-- `str.lower` on a string. -/
def pyLower (s : String) : String :=
  (s.toList.map pyLowerChar).asString

/-- `str.strip()` (no arguments): remove leading and trailing whitespace. -/
def pyStrip (s : String) : String :=
  ((s.toList.dropWhile pyWs).rdropWhile pyWs).asString

/-- `str.rstrip(chars)`: remove trailing characters drawn from `chars`. -/
def pyRstrip (s : String) (chars : List Char) : String :=
  (s.toList.rdropWhile (fun c => chars.contains c)).asString

/-- Python's `needle in hay` substring test. -/
def containsSub (hay needle : String) : Bool :=
  (hay.toList.tails).any (fun t => needle.toList.isPrefixOf t)

/-- `str.startswith(pre)`. -/
def pyStartsWith (s pre : String) : Bool :=
  pre.toList.isPrefixOf s.toList

/-- `str.endswith(suf)`. -/
def pyEndsWith (s suf : String) : Bool :=
  suf.toList.isSuffixOf s.toList

/-- `str.split(d)` for a one-character separator. -/
def pySplitOnChar (s : String) (d : Char) : List String :=
  (s.toList.splitOn d).map List.asString

/-- `d.join(parts)` for a one-character separator. -/
def pyJoinChar (d : Char) (parts : List String) : String :=
  ((parts.map String.toList).intersperse [d]).flatten.asString

/-- Case-insensitive prefix test (used for `re.IGNORECASE` literals). -/
def ciPrefix (lit : List Char) (cs : List Char) : Bool :=
  (lit.map pyLowerChar).isPrefixOf (cs.map pyLowerChar)

/-- `str.split()` with no arguments: split on whitespace runs,
discarding empty pieces. -/
def pySplitWs (s : String) : List String :=
  ((s.toList.splitOnP pyWs).filter (· ≠ [])).map List.asString

/-- Parse a run of decimal digits as `int(...)` would (the call sites
only ever pass strings matched by `\d+`). -/
def pyParseNat (s : String) : Nat :=
  s.toList.foldl (fun acc c => acc * 10 + (c.toNat - '0'.toNat)) 0

/-- Python `round` on a rational: round half to even (banker's rounding),
as `round` does on floats. -/
def pyRound (q : ℚ) : ℤ :=
  let f : ℤ := ⌊q⌋
  let r : ℚ := q - f
  if r < 1/2 then f
  else if 1/2 < r then f + 1
  else if f % 2 = 0 then f else f + 1

/-! ## `urllib.parse.urlparse`

Model of CPython's `urlsplit` restricted to what the repository reads:
`scheme`, `netloc`, `path` and `query` (the `params`/`;` split of
`urlparse` is not modelled; no URL handled by the code carries `;`
path parameters). -/

structure UrlParts where
  scheme : String
  netloc : String
  path : String
  query : String
  fragment : String
deriving DecidableEq, Repr

/-- Characters allowed in a scheme after the leading letter. -/
def schemeChar (c : Char) : Bool :=
  c.isAlpha ∨ c.isDigit ∨ c = '+' ∨ c = '-' ∨ c = '.'

/-- Split off `scheme:` if the prefix before the first `:` is a valid
scheme (leading letter, then scheme characters); the scheme is
lowercased, as in CPython. -/
def splitScheme (cs : List Char) : String × List Char :=
  let pre := cs.takeWhile (· ≠ ':')
  if pre.length < cs.length ∧ pre ≠ [] ∧
      (pre.headD ' ').isAlpha ∧ pre.all schemeChar then
    ((pre.map pyLowerChar).asString, cs.drop (pre.length + 1))
  else ("", cs)

/-- Split off `//netloc` if present: the netloc extends to the first
`/`, `?` or `#`. -/
def splitNetloc (cs : List Char) : String × List Char :=
  if ('/' :: '/' :: []).isPrefixOf cs then
    let rest := cs.drop 2
    let net := rest.takeWhile (fun c => c ≠ '/' ∧ c ≠ '?' ∧ c ≠ '#')
    (net.asString, rest.drop net.length)
  else ("", cs)

/-- Split `rest` at the first occurrence of `d`, as `str.split(d, 1)`. -/
def splitFirst (cs : List Char) (d : Char) : List Char × String :=
  if cs.contains d then
    (cs.takeWhile (· ≠ d), ((cs.dropWhile (· ≠ d)).drop 1).asString)
  else (cs, "")

/-- `urlparse` (without the `params` split). -/
def pyUrlparse (url : String) : UrlParts :=
  let (scheme, r1) := splitScheme url.toList
  let (netloc, r2) := splitNetloc r1
  let (r3, fragment) := splitFirst r2 '#'
  let (r4, query) := splitFirst r3 '?'
  ⟨scheme, netloc, r4.asString, query, fragment⟩

/-! ## `url_extractor.py` — URL cleaning, validation, cascade

A source is a Python dict; the fields below are the union of the keys
the module reads or writes (`dict.get` with a default is a plain field
read here, absent keys being the default value). -/

structure Entite where
  nom : String := ""
  url : String := ""
  domaine : String := ""
  description : String := ""
  contexte : String := ""
  fiabilite : String := ""
  fiabilite_domaine : String := ""
  raison_seo : String := ""
  methode_extraction : String := ""
  accessible : Bool := false
  exploitable_seo : Bool := false
  providers_detection : List String := []
deriving DecidableEq, Repr

/-- One alternative of the tracking-parameter regex
`[?&](utm_[^&]+|gclid=[^&]+|fbclid=[^&]+)`: if `kw` followed by at
least one non-`&` character is a prefix of `cs`, the number of
characters the greedy match consumes from `cs`. -/
def trackKw (kw : List Char) (cs : List Char) : Option Nat :=
  if kw.isPrefixOf cs then
    let body := (cs.drop kw.length).takeWhile (· ≠ '&')
    if body = [] then none else some (kw.length + body.length)
  else none

/-- Characters consumed after a `?`/`&` by the tracking regex, trying
the alternatives in the order of the pattern. -/
def trackConsume (cs : List Char) : Option Nat :=
  match trackKw ("utm_").toList cs with
  | some n => some n
  | none =>
    match trackKw ("gclid=").toList cs with
    | some n => some n
    | none => trackKw ("fbclid=").toList cs

/-- `re.sub(r"[?&](utm_[^&]+|gclid=[^&]+|fbclid=[^&]+)", "", url)`:
left-to-right non-overlapping removal of tracking parameters. The
fuel argument makes the recursion structural; every step consumes at
least one character, so `fuel = length` never runs out. -/
def subTrackGo : Nat → List Char → List Char
  | 0, _ => []
  | _, [] => []
  | fuel + 1, c :: cs =>
    if c = '?' ∨ c = '&' then
      match trackConsume cs with
      | some n => subTrackGo fuel (cs.drop n)
      | none => c :: subTrackGo fuel cs
    else c :: subTrackGo fuel cs

def subTrack (cs : List Char) : List Char :=
  subTrackGo cs.length cs

/-- The character set of `rstrip` in `_nettoyer_url`. -/
def nettoyerRstripSet : List Char :=
  ['.', ',', ';', '!', '?', '\x22', '\x27', ')', ']', '}']

/-- `URLExtractor._nettoyer_url`. -/
def nettoyerUrl (url : String) : String :=
  if url = "" then ""
  else
    let u1 := pyRstrip (pyStrip url) nettoyerRstripSet
    let u2 := if pyStartsWith u1 ("www.") then "https://" ++ u1 else u1
    (subTrack u2.toList).asString

/-- `URLExtractor._url_valide`. -/
def urlValide (url : String) : Bool :=
  let r := pyUrlparse url
  r.scheme ≠ "" ∧ r.netloc ≠ "" ∧ (r.scheme = "http" ∨ r.scheme = "https")

/-- The fixed exclusion list of `URLExtractor.__init__`. -/
def excludedDomains : List String :=
  ["google.com", "bing.com", "yahoo.com", "duckduckgo.com",
   "facebook.com", "twitter.com", "x.com", "linkedin.com",
   "instagram.com", "youtube.com", "tiktok.com",
   "bit.ly", "tinyurl.com", "short.ly", "t.co"]

/-- `URLExtractor._domaine_autorise`. -/
def domaineAutorise (url : String) : Bool :=
  let domaine := pyLower (pyUrlparse url).netloc
  let principal :=
    if domaine.toList.contains '.' then
      pyJoinChar '.' (((pySplitOnChar domaine '.').reverse.take 2).reverse)
    else domaine
  ¬ excludedDomains.contains principal

/-- `URLExtractor._est_url_exploitable_seo`: exploitability verdict and
reason. -/
def estUrlExploitableSeo (url : String) : Bool × String :=
  let parsed := pyUrlparse url
  let path := pyLower parsed.path
  if ["/", "", "/index", "/home", "/accueil"].contains path then
    (false, "URL générique (page d\x27accueil)")
  else if path.length < 3 then
    (false, "URL trop courte, manque de spécificité")
  else if ["/contact", "/mentions-legales", "/conditions", "/privacy",
           "/about", "/a-propos"].any (fun s => containsSub path s) then
    (false, "Section générale non-informative")
  else if parsed.query ≠ "" ∧
      ["utm_", "gclid", "fbclid", "ref="].any
        (fun p => containsSub (pyLower parsed.query) p) then
    (false, "URL avec paramètres de tracking")
  else if ["article", "guide", "comparatif", "conseil", "actualite",
           "dossier", "analyse", "test", "avis", "selection",
           "meilleur", "top-", "classement", "2024", "2025"].any
        (fun i => containsSub path i) then
    (true, "URL spécifique avec contenu informatif")
  else if 2 ≤ ((pySplitOnChar path '/').filter (· ≠ "")).length then
    (true, "URL structurée avec contenu spécialisé")
  else
    (true, "URL acceptable pour analyse")

/-- `URLExtractor._evaluer_fiabilite_domaine`. -/
def evaluerFiabiliteDomaine (url : String) : String :=
  let domaine := pyLower (pyUrlparse url).netloc
  if [".gouv.fr", ".edu", ".org"].any (fun e => containsSub domaine e) then
    "très élevée"
  else if ["lemonde.fr", "lefigaro.fr", "liberation.fr", "lepoint.fr",
           "lesechos.fr", "latribune.fr", "bfmtv.com", "franceinfo.fr"].any
        (fun m => containsSub domaine m) then
    "élevée"
  else if ["banque-france", "amf-france", "cnil"].any
        (fun t => containsSub domaine t) then
    "élevée"
  else "moyenne"

/-- One iteration of `URLExtractor._valider_et_nettoyer_urls`: the state
is `(urls_vues, sources_validees)`; rejected (non-exploitable) sources
are dropped from the output, exactly as in the source. The HTTP
accessibility probe is the parameter `accessible`. -/
def validerStep (accessible : String → Bool)
    (st : List String × List Entite) (source : Entite) :
    List String × List Entite :=
  let urlN := nettoyerUrl source.url
  if urlN ≠ "" ∧ ¬ st.1.contains urlN ∧ urlValide urlN ∧ domaineAutorise urlN then
    let er := estUrlExploitableSeo urlN
    let enrichie := { source with
      url := urlN,
      domaine := (pyUrlparse urlN).netloc,
      fiabilite_domaine := evaluerFiabiliteDomaine urlN,
      accessible := accessible urlN,
      exploitable_seo := er.1,
      raison_seo := er.2 }
    (st.1 ++ [urlN], if er.1 then st.2 ++ [enrichie] else st.2)
  else st

/-- `URLExtractor._valider_et_nettoyer_urls`. -/
def validerEtNettoyerUrls (accessible : String → Bool)
    (sources : List Entite) : List Entite :=
  (sources.foldl (validerStep accessible) ([], [])).2

/-- One iteration of the deduplication dict build in
`URLExtractor._deduplication_finale`. -/
def dedupStep (acc : List Entite) (source : Entite) : List Entite :=
  if source.url = "" then acc
  else if acc.any (fun e => e.url = source.url) then
    acc.map (fun e =>
      if e.url = source.url then
        if source.exploitable_seo ∧ ¬ e.exploitable_seo then source
        else if source.exploitable_seo = e.exploitable_seo ∧
            e.nom.length < source.nom.length then source
        else e
      else e)
  else acc ++ [source]

/-- Sort key of `_deduplication_finale` (a Python tuple of two bools
derived from `fiabilite_domaine`, preceded by exploitability, followed
by name length). -/
def dedupKey (e : Entite) : Bool × Bool × Bool × Nat :=
  (e.exploitable_seo, e.fiabilite_domaine = "très élevée",
   e.fiabilite_domaine = "élevée", e.nom.length)

/-- Lexicographic order on the sort key (Python tuple comparison,
`False < True`). -/
def dedupKeyLe (a b : Bool × Bool × Bool × Nat) : Bool :=
  if a.1 ≠ b.1 then ¬ a.1 ∧ b.1
  else if a.2.1 ≠ b.2.1 then ¬ a.2.1 ∧ b.2.1
  else if a.2.2.1 ≠ b.2.2.1 then ¬ a.2.2.1 ∧ b.2.2.1
  else a.2.2.2 ≤ b.2.2.2

/-- `URLExtractor._deduplication_finale`: keep one source per exact URL
(preferring exploitable, then longer names), then a stable descending
sort on the key — `list.sort(reverse=True)` is stable, as is
`List.mergeSort`. -/
def deduplicationFinale (sources : List Entite) : List Entite :=
  (sources.foldl dedupStep []).mergeSort
    (fun a b => dedupKeyLe (dedupKey b) (dedupKey a))

/-- Candidate list after the tier-2 guard of
`extraire_urls_depuis_reponse`: the tier-2 follow-up is issued iff the
tier-1 parse found fewer than 2 URLs. `t1` is the output of
`_parser_urls_reponse_initiale`, `t2` the parsed reply of
`_demander_sources_explicites` (empty when the prompt errors). -/
def sourcesApresTier2 (t1 t2 : List Entite) : List Entite :=
  if t1.length < 2 then t1 ++ t2 else t1

/-- Candidate list after the tier-3 guard: the forced-citation prompt is
issued iff the list is still empty. -/
def sourcesApresTier3 (t1 t2 t3 : List Entite) : List Entite :=
  let s := sourcesApresTier2 t1 t2
  if s.length < 1 then s ++ t3 else s

/-- Tier-2 guard (`len(sources) < 2`). -/
def tier2Lancee (t1 : List Entite) : Bool :=
  t1.length < 2

/-- Tier-3 guard (`len(sources) < 1`). -/
def tier3Lancee (t1 t2 : List Entite) : Bool :=
  (sourcesApresTier2 t1 t2).length < 1

/-- The exploitable URLs remaining after validation
(`[s for s in sources_validees if s.get("exploitable_seo", False)]`). -/
def urlsExploitables (accessible : String → Bool)
    (t1 t2 t3 : List Entite) : List Entite :=
  (validerEtNettoyerUrls accessible (sourcesApresTier3 t1 t2 t3)).filter
    (fun s => s.exploitable_seo)

/-- Tier-4 guard (`len(urls_exploitables) < 2`). -/
def tier4Lancee (accessible : String → Bool)
    (t1 t2 t3 : List Entite) : Bool :=
  (urlsExploitables accessible t1 t2 t3).length < 2

/-- `URLExtractor.extraire_urls_depuis_reponse`: the full cascade, the
four per-tier parse results passed as parameters in place of the
network round-trips (a failing prompt round contributes `[]`). -/
def extraireUrlsDepuisReponse (accessible : String → Bool)
    (t1 t2 t3 t4 : List Entite) : List Entite :=
  let sv := validerEtNettoyerUrls accessible (sourcesApresTier3 t1 t2 t3)
  let sv2 :=
    if tier4Lancee accessible t1 t2 t3 ∧ t4 ≠ [] then
      sv ++ validerEtNettoyerUrls accessible t4
    else sv
  deduplicationFinale sv2

/-! ## `information_extractor.py` — brand-name normalization -/

/-- The `\w` class of Python `re` (Unicode word character), modelled for
ASCII and Latin-1: letters (including `À`..`ÿ` = 192..255 except
`×` = 215 and `÷` = 247), digits, underscore. -/
def pyWordChar (c : Char) : Bool :=
  (65 ≤ c.toNat ∧ c.toNat ≤ 90) ∨ (97 ≤ c.toNat ∧ c.toNat ≤ 122) ∨
    (48 ≤ c.toNat ∧ c.toNat ≤ 57) ∨ c.toNat = 95 ∨
    (192 ≤ c.toNat ∧ c.toNat ≤ 255 ∧ c.toNat ≠ 215 ∧ c.toNat ≠ 247)

/-- `InformationExtractor._normaliser_nom_marque`:
`re.sub(r"[^\w\s]", "", nom.lower().strip())`, then the fixed alias
table. -/
def nomNormalise (nom : String) : String :=
  ((pyStrip (pyLower nom)).toList.filter
    (fun c => pyWordChar c ∨ pyWs c)).asString

def normaliserNomMarque (nom : String) : String :=
  let nomNorm := nomNormalise nom
  if nomNorm = "hello bank" then "hellobank"
  else if nomNorm = "credit agricole" then "creditagricole"
  else if nomNorm = "societe generale" then "societegenerale"
  else if nomNorm = "bnp paribas" then "bnpparibas"
  else nomNorm

/-! ## `sentiment_analyzer.py` — parsing, fallback, consensus -/

/-- `SentimentAnalyzer._normaliser_sentiment`. -/
def normaliserSentiment (sentimentBrut : String) : String :=
  let sl := pyStrip (pyLower sentimentBrut)
  if ["positif", "positive", "favorable", "bon"].any
      (fun m => containsSub sl m) then "positif"
  else if ["négatif", "negative", "défavorable", "mauvais", "critique"].any
      (fun m => containsSub sl m) then "négatif"
  else "neutre"

/-- `SentimentAnalyzer._normaliser_confiance` (the argument is always a
`\d+` match, so the `ValueError` branch is unreachable). -/
def normaliserConfiance (s : String) : ℤ :=
  max 0 (min 100 (pyParseNat s : ℤ))

/-- `SentimentAnalyzer._similarite_noms`: Jaccard similarity of the
whitespace-separated word sets. -/
def similariteNoms (nom1 nom2 : String) : ℚ :=
  let mots1 := (pySplitWs nom1).dedup
  let mots2 := (pySplitWs nom2).dedup
  if mots1 = [] ∨ mots2 = [] then 0
  else
    let inter := (mots1.filter (fun w => mots2.contains w)).length
    let uni := (mots1 ++ mots2.filter (fun w => ¬ mots1.contains w)).length
    if 0 < uni then (inter : ℚ) / uni else 0

/-- `SentimentAnalyzer._trouver_entite_correspondante`: exact
(case-insensitive) name match first, then substring or word-overlap
match. -/
def trouverEntiteCorrespondante (nomRecherche : String)
    (entites : List Entite) : Option Entite :=
  let nomLower := pyLower nomRecherche
  match entites.find? (fun e => pyLower e.nom = nomLower) with
  | some e => some e
  | none =>
    entites.find? (fun e =>
      let nomEntite := pyLower e.nom
      containsSub nomEntite nomLower ∨ containsSub nomLower nomEntite ∨
        decide ((4 : ℚ)/5 < similariteNoms nomLower nomEntite))

/-! ### The sentiment block regex

`_parser_sentiment_marques` matches, with `re.MULTILINE | re.IGNORECASE`,

`Marque:\s*([^\n]+)\s*\n Sentiment:\s*([^\n]+)\s*\n Confiance:\s*(\d+)\s*\n
Justification:\s*([^\n]+)\s*\n (?:Perception:\s*([^\n]+)\s*\n)?
(?:Recommandation:\s*([^\n]+)\s*\n)?` (spaces added for readability);
`_parser_sentiment_sources` is identical with `Source:`/`Fiabilité:`/
`Autorité:`. The deterministic equivalents of the backtracking pieces:

* `\s*([^\n]+)` — skip the maximal whitespace run, then take the
  maximal nonempty run of non-newline characters;
* `\s*\n` — consume the maximal leading whitespace run up to and
  including its last newline (the greedy engine settles on the largest
  split whose next character is a newline); it fails if the run has no
  newline. -/

/-- Length of the leading whitespace run. -/
def wsRun (cs : List Char) : Nat :=
  (cs.takeWhile pyWs).length

/-- `\s*([^\n]+)`: the captured group and the number of characters
consumed. -/
def grpToEol (cs : List Char) : Option (String × Nat) :=
  let w := wsRun cs
  let g := (cs.drop w).takeWhile (· ≠ '\n')
  if g = [] then none else some (g.asString, w + g.length)

/-- `\s*(\d+)`: the captured digit group and the characters consumed. -/
def grpDigits (cs : List Char) : Option (String × Nat) :=
  let w := wsRun cs
  let g := (cs.drop w).takeWhile Char.isDigit
  if g = [] then none else some (g.asString, w + g.length)

/-- `\s*\n`: characters consumed (through the last newline of the
leading whitespace run), or `none` when the run holds no newline. -/
def wsThroughLastNl (cs : List Char) : Option Nat :=
  let w := cs.takeWhile pyWs
  match w.reverse.findIdx? (· = '\n') with
  | none => none
  | some j => some (w.length - j)

/-- One `Literal:\s*(grp)\s*\n` field of the block pattern; the literal
is matched case-insensitively (`re.IGNORECASE`). Returns the captured
group and the characters consumed. -/
def parseFieldWith (grp : List Char → Option (String × Nat))
    (lit : List Char) (cs : List Char) : Option (String × Nat) :=
  if ciPrefix lit cs then
    let rest := cs.drop lit.length
    match grp rest with
    | none => none
    | some (g, n1) =>
      match wsThroughLastNl (rest.drop n1) with
      | none => none
      | some n2 => some (g, lit.length + n1 + n2)
  else none

/-- A required `Literal:\s*([^\n]+)\s*\n` field. -/
def parseField (lit : List Char) (cs : List Char) : Option (String × Nat) :=
  parseFieldWith grpToEol lit cs

/-- An optional `(?:Literal:\s*([^\n]+)\s*\n)?` field: when the inner
pattern fails the group is skipped and nothing is consumed. -/
def parseOptField (lit : List Char) (cs : List Char) : Option String × Nat :=
  match parseField lit cs with
  | some (g, n) => (some g, n)
  | none => (none, 0)

/-- The six captured groups of one sentiment block. -/
structure BlocGroupes where
  g1 : String
  g2 : String
  g3 : String
  g4 : String
  g5 : Option String
  g6 : Option String
deriving DecidableEq, Repr

/-- Match one whole sentiment block at the current position: `lead` is
`marque:`/`source:`, `opt1`/`opt2` the two optional field literals
(all given lowercase). Returns the groups and the characters consumed. -/
def matchBloc (lead opt1 opt2 : List Char) (cs : List Char) :
    Option (BlocGroupes × Nat) :=
  match parseField lead cs with
  | none => none
  | some (g1, n1) =>
    match parseField ("sentiment:").toList (cs.drop n1) with
    | none => none
    | some (g2, n2) =>
      match parseFieldWith grpDigits ("confiance:").toList (cs.drop (n1 + n2)) with
      | none => none
      | some (g3, n3) =>
        match parseField ("justification:").toList (cs.drop (n1 + n2 + n3)) with
        | none => none
        | some (g4, n4) =>
          let o1 := parseOptField opt1 (cs.drop (n1 + n2 + n3 + n4))
          let o2 := parseOptField opt2 (cs.drop (n1 + n2 + n3 + n4 + o1.2))
          some (⟨g1, g2, g3, g4, o1.1, o2.1⟩,
            n1 + n2 + n3 + n4 + o1.2 + o2.2)

theorem grpToEol_pos {cs : List Char} {g : String} {n : Nat}
    (h : grpToEol cs = some (g, n)) : 1 ≤ n := by
  unfold grpToEol at h
  simp only [] at h
  split at h
  · exact absurd h (by simp)
  · next hne =>
    obtain ⟨rfl, rfl⟩ := Prod.mk.injEq .. ▸ Option.some.inj h
    have := List.length_pos.mpr hne
    omega

theorem parseField_pos {lit cs : List Char} {g : String} {n : Nat}
    (h : parseField lit cs = some (g, n)) : 1 ≤ n := by
  unfold parseField parseFieldWith at h
  simp only [] at h
  split at h
  · split at h
    · exact absurd h (by simp)
    · next g1 n1 he =>
      split at h
      · exact absurd h (by simp)
      · next n2 hw =>
        obtain ⟨rfl, rfl⟩ := Prod.mk.injEq .. ▸ Option.some.inj h
        have := grpToEol_pos he
        omega
  · exact absurd h (by simp)

theorem matchBloc_pos {lead opt1 opt2 cs : List Char}
    {gn : BlocGroupes × Nat}
    (h : matchBloc lead opt1 opt2 cs = some gn) : 1 ≤ gn.2 := by
  unfold matchBloc at h
  simp only [] at h
  split at h
  · exact absurd h (by simp)
  · next g1 n1 h1 =>
    split at h
    · exact absurd h (by simp)
    · next g2 n2 h2 =>
      split at h
      · exact absurd h (by simp)
      · next g3 n3 h3 =>
        split at h
        · exact absurd h (by simp)
        · next g4 n4 h4 =>
          have := parseField_pos h1
          cases Option.some.inj h
          simp only []
          omega

/-- `re.finditer` over the block pattern: scan left to right, resuming
after each match end, advancing one character past failed positions.
The fuel argument makes the recursion structural; by `matchBloc_pos`
every step consumes at least one character, so `fuel = length` never
runs out. -/
def finditerBlocsGo (lead opt1 opt2 : List Char) :
    Nat → List Char → List BlocGroupes
  | 0, _ => []
  | _, [] => []
  | fuel + 1, c :: cs =>
    match matchBloc lead opt1 opt2 (c :: cs) with
    | some gn => gn.1 :: finditerBlocsGo lead opt1 opt2 fuel ((c :: cs).drop gn.2)
    | none => finditerBlocsGo lead opt1 opt2 fuel cs

def finditerBlocs (lead opt1 opt2 cs : List Char) : List BlocGroupes :=
  finditerBlocsGo lead opt1 opt2 cs.length cs

/-! ### Python dict helpers (association lists in insertion order) -/

/-- Dict assignment `d[k] = v`: replace in place if the key exists,
else append. -/
def dinsert {α : Type} (l : List (String × α)) (k : String) (v : α) :
    List (String × α) :=
  if l.any (fun p => p.1 = k) then
    l.map (fun p => if p.1 = k then (k, v) else p)
  else l ++ [(k, v)]

/-- Dict lookup `d.get(k)`. -/
def dlookup {α : Type} (l : List (String × α)) (k : String) : Option α :=
  (l.find? (fun p => p.1 = k)).map (fun p => p.2)

/-! ### Parsed sentiment records -/

/-- The dict built per brand by `_parser_sentiment_marques` /
`_generer_sentiments_fallback`. -/
structure MarqueSentiment where
  sentiment : String
  confiance : ℤ
  justification : String
  perception_business : String
  niveau_recommandation : String
  methode_analyse : String
  entite_originale : String
deriving DecidableEq, Repr

/-- The dict built per source by `_parser_sentiment_sources` /
`_generer_sentiments_fallback`. -/
structure SourceSentiment where
  sentiment : String
  confiance : ℤ
  justification : String
  fiabilite_percue : String
  niveau_autorite : String
  methode_analyse : String
  entite_originale : String
  url : String
deriving DecidableEq, Repr

/-- `SentimentAnalyzer._parser_sentiment_marques`: parse every block,
normalize, match back to a known brand, and store under the brand name
(unmatched blocks are dropped; no record is created for brands the
reply omits). -/
def parserSentimentMarques (reponseLlm : String) (marques : List Entite) :
    List (String × MarqueSentiment) :=
  (finditerBlocs ("marque:").toList ("perception:").toList
      ("recommandation:").toList reponseLlm.toList).foldl
    (fun acc bloc =>
      let nomMarque := pyStrip bloc.g1
      match trouverEntiteCorrespondante nomMarque marques with
      | some m =>
        dinsert acc m.nom
          { sentiment := normaliserSentiment (pyStrip bloc.g2)
            confiance := normaliserConfiance bloc.g3
            justification := pyStrip bloc.g4
            perception_business := ((bloc.g5).map pyStrip).getD ""
            niveau_recommandation := ((bloc.g6).map pyStrip).getD ""
            methode_analyse := "llm_specialise"
            entite_originale := nomMarque }
      | none => acc) []

/-- `SentimentAnalyzer._parser_sentiment_sources`. -/
def parserSentimentSources (reponseLlm : String) (sources : List Entite) :
    List (String × SourceSentiment) :=
  (finditerBlocs ("source:").toList ("fiabilité:").toList
      ("autorité:").toList reponseLlm.toList).foldl
    (fun acc bloc =>
      let nomSource := pyStrip bloc.g1
      match trouverEntiteCorrespondante nomSource sources with
      | some s =>
        dinsert acc s.nom
          { sentiment := normaliserSentiment (pyStrip bloc.g2)
            confiance := normaliserConfiance bloc.g3
            justification := pyStrip bloc.g4
            fiabilite_percue := ((bloc.g5).map pyStrip).getD ""
            niveau_autorite := ((bloc.g6).map pyStrip).getD ""
            methode_analyse := "llm_specialise"
            entite_originale := nomSource
            url := s.url }
      | none => acc) []

/-! ### Section extraction for the batch reply

`_extraire_section` is called with the patterns `🏢\s*ANALYSE MARQUES:`,
`🔗\s*ANALYSE SOURCES:` and `$` (`re.IGNORECASE`, no `MULTILINE`, so
`$` matches at the end of the string, or just before a terminal
newline). -/

/-- Index just after the first match of `emoji\s*LIT` in `cs`. -/
def searchHeaderEnd (emoji : Char) (lit : List Char) :
    List Char → Option Nat
  | [] => none
  | c :: cs =>
    if c = emoji ∧ ciPrefix lit (cs.drop (wsRun cs)) then
      some (1 + wsRun cs + lit.length)
    else (searchHeaderEnd emoji lit cs).map (· + 1)

/-- Index of the start of the first match of `emoji\s*LIT` in `cs`. -/
def searchHeaderStart (emoji : Char) (lit : List Char) :
    List Char → Option Nat
  | [] => none
  | c :: cs =>
    if c = emoji ∧ ciPrefix lit (cs.drop (wsRun cs)) then some 0
    else (searchHeaderStart emoji lit cs).map (· + 1)

/-- `_extraire_section(reponse, "🏢\s*ANALYSE MARQUES:",
"🔗\s*ANALYSE SOURCES:")`. -/
def extraireSectionMarques (texte : String) : String :=
  match searchHeaderEnd '🏢' ("analyse marques:").toList texte.toList with
  | none => ""
  | some st =>
    let rest := texte.toList.drop st
    match searchHeaderStart '🔗' ("analyse sources:").toList rest with
    | some e => pyStrip ((rest.take e).asString)
    | none => pyStrip rest.asString

/-- `_extraire_section(reponse, "🔗\s*ANALYSE SOURCES:", "$")`. -/
def extraireSectionSources (texte : String) : String :=
  match searchHeaderEnd '🔗' ("analyse sources:").toList texte.toList with
  | none => ""
  | some st =>
    let rest := texte.toList.drop st
    let e := if rest.getLast? = some '\n' then rest.length - 1 else rest.length
    pyStrip ((rest.take e).asString)

/-- `SentimentAnalyzer._parser_sentiment_batch`. -/
def parserSentimentBatch (reponseLlm : String)
    (marques sources : List Entite) :
    List (String × MarqueSentiment) × List (String × SourceSentiment) :=
  let sectionMarques := extraireSectionMarques reponseLlm
  let sectionSources := extraireSectionSources reponseLlm
  (if sectionMarques ≠ "" then parserSentimentMarques sectionMarques marques
   else [],
   if sectionSources ≠ "" then parserSentimentSources sectionSources sources
   else [])

/-- `SentimentAnalyzer._generer_sentiments_fallback` for brands
(`type_entite = "marque"`). -/
def genererSentimentsFallbackMarques (entites : List Entite) :
    List (String × MarqueSentiment) :=
  entites.foldl
    (fun acc e =>
      dinsert acc e.nom
        { sentiment := "neutre"
          confiance := 30
          justification := "Analyse fallback pour marque"
          perception_business := "inconnue"
          niveau_recommandation := "neutre"
          methode_analyse := "fallback_basic"
          entite_originale := e.nom }) []

/-- `SentimentAnalyzer._generer_sentiments_fallback` for sources
(`type_entite = "source"`). -/
def genererSentimentsFallbackSources (entites : List Entite) :
    List (String × SourceSentiment) :=
  entites.foldl
    (fun acc e =>
      dinsert acc e.nom
        { sentiment := "neutre"
          confiance := 30
          justification := "Analyse fallback pour source"
          fiabilite_percue := "moyenne"
          niveau_autorite := "moyenne"
          methode_analyse := "fallback_basic"
          entite_originale := e.nom
          url := e.url }) []

/-- `SentimentAnalyzer.analyser_sentiment_batch`: the LLM reply is the
parameter `reponse` (`none` models a failed or empty query). The
whole-reply fallback is the only fallback path: a successful reply is
parsed, and subjects it omits simply get no record. -/
def analyserSentimentBatch (reponse : Option String)
    (marques sources : List Entite) :
    List (String × MarqueSentiment) × List (String × SourceSentiment) :=
  if marques = [] ∧ sources = [] then ([], [])
  else
    match reponse with
    | some r => parserSentimentBatch r marques sources
    | none =>
      (genererSentimentsFallbackMarques marques,
       genererSentimentsFallbackSources sources)

/-! ### Majority-vote consensus -/

/-- What `calculer_sentiment_majoritaire` reads from one per-provider
sentiment dict: `provider_data.get("sentiment", ...)` and
`provider_data.get("confiance", ...)`. -/
structure SentimentVote where
  sentiment : String
  confiance : ℤ
deriving DecidableEq, Repr

/-- Number of votes for one label. -/
def countLabel (lbl : String) (l : List SentimentVote) : Nat :=
  (l.filter (fun v => v.sentiment = lbl)).length

/-- `SentimentAnalyzer.calculer_sentiment_majoritaire` on the values of
the per-provider dict. The empty dict yields Python's
`{"sentiment": "inconnu", "confiance": 0}`, modelled as `none`. The
two-step `max` mirrors Python `max(compteur.items(), key=...)` over
the insertion order `positif, neutre, négatif`, which keeps the first
maximum. -/
structure ConsensusOut where
  sentiment : String
  votes : Nat
  total_providers : Nat
  consensus_score : ℚ
  confiance_moyenne : ℤ
  distribution : Nat × Nat × Nat
deriving DecidableEq, Repr

def calculerSentimentMajoritaire (l : List SentimentVote) :
    Option ConsensusOut :=
  if l = [] then none
  else
    let cPos := countLabel "positif" l
    let cNeu := countLabel "neutre" l
    let cNeg := countLabel "négatif" l
    let m1 : String × Nat :=
      if cPos < cNeu then ("neutre", cNeu) else ("positif", cPos)
    let m2 : String × Nat :=
      if m1.2 < cNeg then ("négatif", cNeg) else m1
    let confs : List ℤ := (l.filter (fun v => v.sentiment = m2.1)).map
      (fun v => v.confiance)
    let moyenne : ℚ :=
      if confs = [] then 50 else (confs.sum : ℚ) / confs.length
    some
      { sentiment := m2.1
        votes := m2.2
        total_providers := l.length
        consensus_score := (m2.2 : ℚ) / l.length
        confiance_moyenne := pyRound moyenne
        distribution := (cPos, cNeu, cNeg) }

/-! ## `case_studies/llm_source_extractor.py` — confidence scoring -/

/-- `models.SourceURL` (the fields this module touches). -/
structure SrcURL where
  url : String
  citation_order : Nat := 0
  mentioned_in_context : String := ""
  reliability_score : ℚ := 0
  domain : String := ""
  extraction_confidence : ℚ := 0
deriving DecidableEq, Repr

/-- `LLMSourceExtractor._is_valid_url` (same body as
`URLExtractor._url_valide`). -/
def isValidUrl (url : String) : Bool :=
  urlValide url

/-- `LLMSourceExtractor._calculate_extraction_confidence`: base 0.5,
+0.3 in a citation context, +0.1 for a long https URL, −0.2 for a
truncated-looking one, clamped to `[0, 1]`. -/
def calculateExtractionConfidence (url context : String) : ℚ :=
  let c1 : ℚ := 1/2
  let c2 := if ["source:", "référence:", "voir:", "lien:", "url:",
      "site:"].any (fun i => containsSub (pyLower context) i) then
      c1 + 3/10 else c1
  let c3 := if pyStartsWith url ("https://") ∧ 20 < url.length then
      c2 + 1/10 else c2
  let c4 := if pyEndsWith url ("...") ∨ url.length < 10 then
      c3 - 1/5 else c3
  min 1 (max 0 c4)

/-- The body of the `_advanced_url_validation` loop for one source:
`none` when the source is filtered out, otherwise the source with the
path bonuses added to `extraction_confidence` (the step that can push
the value above 1). -/
def advancedValidateOne (source : SrcURL) : Option SrcURL :=
  if ¬ isValidUrl source.url then none
  else if source.url.length < 15 then none
  else if ["bit.ly", "t.co", "tinyurl.com", "goo.gl", "ow.ly", "a.co",
      "amzn.to", "youtu.be"].any
      (fun s => containsSub (pyLower source.url) s) then none
  else if ["google.com/search", "bing.com/search", "yahoo.com/search"].any
      (fun s => containsSub (pyLower source.url) s) then none
  else if (["facebook.com", "twitter.com", "instagram.com",
      "linkedin.com"].any (fun s => containsSub (pyLower source.url) s)) ∧
      ¬ (["/company/", "/official/", "/pages/"].any
        (fun s => containsSub (pyLower source.url) s)) then none
  else
    let parsed := pyUrlparse source.url
    let conf1 := if parsed.path ≠ "" ∧ 1 < parsed.path.length then
      source.extraction_confidence + 1/10 else source.extraction_confidence
    let conf2 := if ["guide", "article", "blog", "ressource",
        "documentation"].any (fun k => containsSub (pyLower parsed.path) k) then
      conf1 + 1/20 else conf1
    some { source with extraction_confidence := conf2 }

/-- `LLMSourceExtractor._advanced_url_validation`: filter and enrich,
then a stable sort by descending extraction confidence. -/
def advancedUrlValidation (sources : List SrcURL) : List SrcURL :=
  (sources.filterMap advancedValidateOne).mergeSort
    (fun a b => decide (b.extraction_confidence ≤ a.extraction_confidence))

/-! ## `multi_llm_analyzer.py` — consolidation, consensus, orchestrator -/

/-- The merge branch of `_consolider_entites` for an already-seen key:
append the provider and fill the `description`/`contexte`/`fiabilite`
fields only when the stored value is falsy. -/
def mergeEntite (x : Entite) (provider : String) (e : Entite) : Entite :=
  { x with
    providers_detection := x.providers_detection ++ [provider]
    description := if x.description = "" then e.description else x.description
    contexte := if x.contexte = "" then e.contexte else x.contexte
    fiabilite := if x.fiabilite = "" then e.fiabilite else x.fiabilite }

/-- One iteration of `_consolider_entites` on a `(provider, entity)`
pair: keys are the raw `nom`/`url` field, empty keys are skipped, a new
key is appended with `providers_detection = [provider]`. -/
def consoliderStep (keyf : Entite → String) (acc : List Entite)
    (pe : String × Entite) : List Entite :=
  let cle := keyf pe.2
  if cle = "" then acc
  else if acc.any (fun x => keyf x = cle) then
    acc.map (fun x => if keyf x = cle then mergeEntite x pe.1 pe.2 else x)
  else acc ++ [{ pe.2 with providers_detection := [pe.1] }]

/-- `MultiLLMAnalyzer._consolider_entites` over the per-provider dict
(in insertion order). -/
def consoliderEntites (keyf : Entite → String)
    (entitesParProvider : List (String × List Entite)) : List Entite :=
  (entitesParProvider.flatMap (fun pe => pe.2.map (fun e => (pe.1, e)))).foldl
    (consoliderStep keyf) []

/-- `MultiLLMAnalyzer._calculer_consensus_entites`: for each
consolidated entity, gather that key's sentiment dict values across
providers and run the majority vote (entities with no record are not
materialized). -/
def calculerConsensusEntites
    (sentimentsParProvider : List (String × List (String × SentimentVote)))
    (entites : List Entite) (keyf : Entite → String) :
    List (String × ConsensusOut) :=
  entites.foldl
    (fun acc e =>
      let cle := keyf e
      if cle = "" then acc
      else
        let votes := sentimentsParProvider.filterMap
          (fun ps => dlookup ps.2 cle)
        match calculerSentimentMajoritaire votes with
        | some r => dinsert acc cle r
        | none => acc) []

/-- Sentiment counts over all providers and subjects
(`_calculer_statistiques_v2`, distribution part). -/
def distributionSentiments
    (m : List (String × List (String × SentimentVote))) : Nat × Nat × Nat :=
  let votes := m.flatMap (fun ps => ps.2.map (fun kv => kv.2))
  (countLabel "positif" votes, countLabel "neutre" votes,
   countLabel "négatif" votes)

/-- `_calculer_statistiques_v2` output. -/
structure Statistiques where
  nombre_providers : Nat
  providers_utilises : List String
  extraction_performance : List (String × Nat × Nat × Nat)
  sentiment_distribution_marques : Nat × Nat × Nat
  sentiment_distribution_sources : Nat × Nat × Nat
deriving DecidableEq, Repr

def calculerStatistiquesV2 (providers : List String)
    (marques sources : List (String × List Entite))
    (sm ss : List (String × List (String × SentimentVote))) : Statistiques :=
  { nombre_providers := providers.length
    providers_utilises := providers
    extraction_performance := providers.map (fun p =>
      let nm := ((dlookup marques p).getD []).length
      let ns := ((dlookup sources p).getD []).length
      (p, nm, ns, nm + ns))
    sentiment_distribution_marques := distributionSentiments sm
    sentiment_distribution_sources := distributionSentiments ss }

/-- `URLExtractor.generer_rapport_urls` output; `domaines_uniques` is a
Python `set`, modelled as a `Finset` (its final `list(...)` order is
unspecified). A missing `fiabilite_domaine`/`methode_extraction` key is
the empty string in this model, read back as `"inconnue"` by the
`dict.get` defaults. -/
structure RapportUrls where
  total_sources : Nat
  sources_par_provider : List (String × Nat)
  domaines_uniques : Finset String
  fiabilite_tres_elevee : Nat
  fiabilite_elevee : Nat
  fiabilite_moyenne : Nat
  fiabilite_inconnue : Nat
  methodes_extraction : List (String × Nat)
  urls_accessibles : Nat
  urls_inaccessibles : Nat
deriving DecidableEq

def genererRapportUrls (sources : List (String × List Entite)) : RapportUrls :=
  let all := sources.flatMap (fun ps => ps.2)
  { total_sources := all.length
    sources_par_provider := sources.map (fun ps => (ps.1, ps.2.length))
    domaines_uniques := (all.map (fun e => e.domaine)).toFinset
    fiabilite_tres_elevee :=
      (all.filter (fun e => e.fiabilite_domaine = "très élevée")).length
    fiabilite_elevee :=
      (all.filter (fun e => e.fiabilite_domaine = "élevée")).length
    fiabilite_moyenne :=
      (all.filter (fun e => e.fiabilite_domaine = "moyenne")).length
    fiabilite_inconnue :=
      (all.filter (fun e => e.fiabilite_domaine = "inconnue" ∨
        e.fiabilite_domaine = "")).length
    methodes_extraction := all.foldl
      (fun acc e =>
        let m := if e.methode_extraction = "" then "inconnue"
          else e.methode_extraction
        match dlookup acc m with
        | some n => dinsert acc m (n + 1)
        | none => acc ++ [(m, 1)]) []
    urls_accessibles := (all.filter (fun e => e.accessible)).length
    urls_inaccessibles := (all.filter (fun e => ¬ e.accessible)).length }

/-- `_consolider_resultats_v2` output. -/
structure RapportConsolide where
  toutes_marques : List Entite
  toutes_sources : List Entite
  consensus_marques : List (String × ConsensusOut)
  consensus_sources : List (String × ConsensusOut)
deriving DecidableEq

/-- The per-backend collaborators of the orchestrator (extraction and
sentiment run per provider on its response text); they stand for
`InformationExtractor.extraire_marques_completes` /
`extraire_ordre_citations`, `URLExtractor.extraire_urls_depuis_reponse`
and `SentimentAnalyzer.analyser_sentiment_batch` (the latter projected
to the `sentiment`/`confiance` fields, the only ones the orchestrator
reads downstream). -/
structure Oracles where
  extraireMarques : String → List Entite
  extraireSources : String → List Entite
  extraireCitations : String → List String
  sentimentBatch : String → List Entite → List Entite →
    List (String × SentimentVote) × List (String × SentimentVote)

/-- The `resultats` dict of `analyser_question_complete` (the
`timestamp` field, a wall-clock read, is not modelled); the empty-dict
placeholders for the consolidation stages are `none` until the stage
runs, and `erreur_critique` is the key the `except` branch would add. -/
structure Resultats where
  question : String
  contexte : String
  providers_utilises : List String
  reponses_brutes : List (String × Option String)
  marques_detectees : List (String × List Entite)
  sources_extraites : List (String × List Entite)
  citations_ordonnees : List (String × List String)
  sentiment_marques : List (String × List (String × SentimentVote))
  sentiment_sources : List (String × List (String × SentimentVote))
  rapport_urls : Option RapportUrls
  statistiques : Option Statistiques
  rapport_consolide : Option RapportConsolide
  erreur_critique : Option String
deriving DecidableEq

/-- The freshly initialized `resultats` structure. -/
def resultatsInitiaux (question contexte : String) : Resultats :=
  { question := question, contexte := contexte
    providers_utilises := [], reponses_brutes := []
    marques_detectees := [], sources_extraites := []
    citations_ordonnees := [], sentiment_marques := []
    sentiment_sources := [], rapport_urls := none
    statistiques := none, rapport_consolide := none
    erreur_critique := none }

/-- `MultiLLMAnalyzer.analyser_question_complete`. The result of
`query_all_providers` is the parameter `reponses` (one entry per
available provider; `none` marks a failed query). With zero successful
responses the function returns the initialized structure right after
recording the raw responses; otherwise it runs extraction, sentiment
and consolidation per provider. Nothing in the body raises, so
`erreur_critique` is never set. -/
def analyserQuestionComplete (o : Oracles) (question contexte : String)
    (reponses : List (String × Option String)) : Resultats :=
  let utilises := reponses.filterMap
    (fun pr => if pr.2.isSome then some pr.1 else none)
  let base := { resultatsInitiaux question contexte with
    reponses_brutes := reponses, providers_utilises := utilises }
  if utilises = [] then base
  else
    let getText (p : String) : String := ((dlookup reponses p).getD none).getD ""
    let marques := utilises.map (fun p => (p, o.extraireMarques (getText p)))
    let sources := utilises.map (fun p => (p, o.extraireSources (getText p)))
    let citations := utilises.map
      (fun p => (p, o.extraireCitations (getText p)))
    let sentiments := utilises.map (fun p =>
      (p, o.sentimentBatch (getText p) ((dlookup marques p).getD [])
        ((dlookup sources p).getD [])))
    let sentimentMarques := sentiments.map (fun ps => (ps.1, ps.2.1))
    let sentimentSources := sentiments.map (fun ps => (ps.1, ps.2.2))
    let toutesMarques := consoliderEntites (fun e => e.nom) marques
    let toutesSources := consoliderEntites (fun e => e.url) sources
    { base with
      marques_detectees := marques
      sources_extraites := sources
      citations_ordonnees := citations
      sentiment_marques := sentimentMarques
      sentiment_sources := sentimentSources
      rapport_consolide := some
        { toutes_marques := toutesMarques
          toutes_sources := toutesSources
          consensus_marques := calculerConsensusEntites sentimentMarques
            toutesMarques (fun e => e.nom)
          consensus_sources := calculerConsensusEntites sentimentSources
            toutesSources (fun e => e.url) }
      statistiques := some (calculerStatistiquesV2 utilises marques sources
        sentimentMarques sentimentSources)
      rapport_urls := some (genererRapportUrls sources) }

/-! ## Claim C10 — sentiment-label normalization is total and closed -/

/-- C10: `_normaliser_sentiment` is total and closed over the
three-label enum — every input maps to exactly one of `positif`,
`négatif`, `neutre` — and any input whose lowercased, stripped form
contains none of the recognized positive or negative keywords maps to
`neutre`. -/
theorem C10_normaliser_sentiment_total_et_clos :
    (∀ s : String,
      normaliserSentiment s = "positif" ∨ normaliserSentiment s = "négatif" ∨
        normaliserSentiment s = "neutre") ∧
    (∀ s : String,
      (∀ k ∈ ["positif", "positive", "favorable", "bon", "négatif",
          "negative", "défavorable", "mauvais", "critique"],
        containsSub (pyStrip (pyLower s)) k = false) →
      normaliserSentiment s = "neutre") := by
  constructor
  · intro s
    unfold normaliserSentiment
    simp only []
    split
    · exact Or.inl rfl
    · split
      · exact Or.inr (Or.inl rfl)
      · exact Or.inr (Or.inr rfl)
  · intro s hk
    have h1 : (["positif", "positive", "favorable", "bon"].any
        (fun m => containsSub (pyStrip (pyLower s)) m)) = false := by
      simp only [List.any_eq_false]
      intro k hkmem
      have := hk k (by simp at hkmem ⊢; tauto)
      simp [this]
    have h2 : (["négatif", "negative", "défavorable", "mauvais",
        "critique"].any (fun m => containsSub (pyStrip (pyLower s)) m)) = false := by
      simp only [List.any_eq_false]
      intro k hkmem
      have := hk k (by simp at hkmem ⊢; tauto)
      simp [this]
    unfold normaliserSentiment
    simp only [h1, h2]
    simp

/-- Witness for C10 at a concrete keyword-free input. -/
theorem C10_normaliser_sentiment_witness :
    normaliserSentiment "RAS" = "neutre" :=
  C10_normaliser_sentiment_total_et_clos.2 "RAS" (by decide)

/-! ## Claims C1 and C7 — majority-vote consensus -/

/-- Full characterization of `calculer_sentiment_majoritaire` on a
nonempty record set: winner selection with its tie-break order, the
consensus score and the rounded mean confidence (shared by the
consensus claims). -/
theorem calculer_majoritaire_spec (l : List SentimentVote) (hne : l ≠ []) :
    ∃ r, calculerSentimentMajoritaire l = some r ∧
      r.votes = countLabel r.sentiment l ∧
      countLabel "positif" l ≤ r.votes ∧
      countLabel "neutre" l ≤ r.votes ∧
      countLabel "négatif" l ≤ r.votes ∧
      (r.sentiment = "positif" ↔
        countLabel "neutre" l ≤ countLabel "positif" l ∧
        countLabel "négatif" l ≤ countLabel "positif" l) ∧
      (r.sentiment = "neutre" ↔
        countLabel "positif" l < countLabel "neutre" l ∧
        countLabel "négatif" l ≤ countLabel "neutre" l) ∧
      (r.sentiment = "négatif" ↔
        countLabel "positif" l < countLabel "négatif" l ∧
        countLabel "neutre" l < countLabel "négatif" l) ∧
      r.total_providers = l.length ∧
      r.consensus_score = (r.votes : ℚ) / l.length ∧
      r.confiance_moyenne = pyRound
        (if ((l.filter (fun v => v.sentiment = r.sentiment)).map
            (fun v => v.confiance)) = [] then 50
         else (((((l.filter (fun v => v.sentiment = r.sentiment)).map
            (fun v => v.confiance)).sum : ℤ) : ℚ) /
            ((l.filter (fun v => v.sentiment = r.sentiment)).map
              (fun v => v.confiance)).length)) := by
  unfold calculerSentimentMajoritaire
  simp only [if_neg hne]
  by_cases hab : countLabel "positif" l < countLabel "neutre" l
  · by_cases hbc : countLabel "neutre" l < countLabel "négatif" l
    · refine ⟨_, rfl, ?_⟩
      simp only [if_pos hab, if_pos hbc]
      refine ⟨by trivial, by omega, by omega, by omega, ?_, ?_, ?_,
        by trivial, by trivial, by trivial⟩
      · constructor
        · intro h; exact absurd h (by decide)
        · intro h; omega
      · constructor
        · intro h; exact absurd h (by decide)
        · intro h; omega
      · exact ⟨fun _ => ⟨by omega, by omega⟩, fun _ => by trivial⟩
    · refine ⟨_, rfl, ?_⟩
      simp only [if_pos hab, if_neg hbc]
      refine ⟨by trivial, by omega, by omega, by omega, ?_, ?_, ?_,
        by trivial, by trivial, by trivial⟩
      · constructor
        · intro h; exact absurd h (by decide)
        · intro h; omega
      · exact ⟨fun _ => ⟨by omega, by omega⟩, fun _ => by trivial⟩
      · constructor
        · intro h; exact absurd h (by decide)
        · intro h; omega
  · by_cases hac : countLabel "positif" l < countLabel "négatif" l
    · refine ⟨_, rfl, ?_⟩
      simp only [if_neg hab, if_pos hac]
      refine ⟨by trivial, by omega, by omega, by omega, ?_, ?_, ?_,
        by trivial, by trivial, by trivial⟩
      · constructor
        · intro h; exact absurd h (by decide)
        · intro h; omega
      · constructor
        · intro h; exact absurd h (by decide)
        · intro h; omega
      · exact ⟨fun _ => ⟨by omega, by omega⟩, fun _ => by trivial⟩
    · refine ⟨_, rfl, ?_⟩
      simp only [if_neg hab, if_neg hac]
      refine ⟨by trivial, by omega, by omega, by omega, ?_, ?_, ?_,
        by trivial, by trivial, by trivial⟩
      · exact ⟨fun _ => ⟨by omega, by omega⟩, fun _ => by trivial⟩
      · constructor
        · intro h; exact absurd h (by decide)
        · intro h; omega
      · constructor
        · intro h; exact absurd h (by decide)
        · intro h; omega

/-- C1 (amended): on a nonempty record set,
`calculer_sentiment_majoritaire` picks the label with the most votes,
breaking ties in the order `positif > neutre > négatif`;
`consensus_score = winner_votes / total_voters`; and the reported
average confidence is the mean of the winning-label confidences
**rounded to the nearest integer** (Python `round`, half to even) —
not the exact mean, which the claim as stated asserts. -/
theorem C1_sentiment_majoritaire (l : List SentimentVote) (hne : l ≠ []) :
    ∃ r, calculerSentimentMajoritaire l = some r ∧
      r.votes = countLabel r.sentiment l ∧
      countLabel "positif" l ≤ r.votes ∧
      countLabel "neutre" l ≤ r.votes ∧
      countLabel "négatif" l ≤ r.votes ∧
      (r.sentiment = "positif" ↔
        countLabel "neutre" l ≤ countLabel "positif" l ∧
        countLabel "négatif" l ≤ countLabel "positif" l) ∧
      (r.sentiment = "neutre" ↔
        countLabel "positif" l < countLabel "neutre" l ∧
        countLabel "négatif" l ≤ countLabel "neutre" l) ∧
      (r.sentiment = "négatif" ↔
        countLabel "positif" l < countLabel "négatif" l ∧
        countLabel "neutre" l < countLabel "négatif" l) ∧
      r.total_providers = l.length ∧
      r.consensus_score = (r.votes : ℚ) / l.length ∧
      r.confiance_moyenne = pyRound
        (if ((l.filter (fun v => v.sentiment = r.sentiment)).map
            (fun v => v.confiance)) = [] then 50
         else (((((l.filter (fun v => v.sentiment = r.sentiment)).map
            (fun v => v.confiance)).sum : ℤ) : ℚ) /
            ((l.filter (fun v => v.sentiment = r.sentiment)).map
              (fun v => v.confiance)).length)) :=
  calculer_majoritaire_spec l hne

/-- Witness for C1: the documented tie `{positif: 1, neutre: 1}` is
resolved to `positif`. -/
theorem C1_sentiment_majoritaire_witness :
    ∃ r, calculerSentimentMajoritaire
        [⟨"positif", 80⟩, ⟨"neutre", 60⟩] = some r ∧
      r.sentiment = "positif" := by
  obtain ⟨r, hr, _, _, _, _, hpos, _⟩ :=
    C1_sentiment_majoritaire [⟨"positif", 80⟩, ⟨"neutre", 60⟩] (by decide)
  exact ⟨r, hr, hpos.mpr ⟨by decide, by decide⟩⟩

/-- Counterexample for C1 as stated: with three `positif` votes of
confidences 0, 0, 1, the mean of the winning-label confidences is
`1/3`, but the code reports `round(1/3) = 0` — `average_confidence` is
not the mean. -/
theorem C1_confiance_moyenne_contre_exemple :
    ∃ r, calculerSentimentMajoritaire
        [⟨"positif", 0⟩, ⟨"positif", 0⟩, ⟨"positif", 1⟩] = some r ∧
      r.sentiment = "positif" ∧
      (((([(⟨"positif", 0⟩ : SentimentVote), ⟨"positif", 0⟩,
          ⟨"positif", 1⟩].filter (fun v => v.sentiment = r.sentiment)).map
          (fun v => v.confiance)).sum : ℤ) : ℚ) /
        (([(⟨"positif", 0⟩ : SentimentVote), ⟨"positif", 0⟩,
          ⟨"positif", 1⟩].filter (fun v => v.sentiment = r.sentiment)).map
          (fun v => v.confiance)).length = 1/3 ∧
      r.confiance_moyenne = 0 ∧
      ((r.confiance_moyenne : ℚ) ≠ 1/3) := by
  obtain ⟨r, hr, _, _, _, _, hpos, _, _, _, _, hconf⟩ :=
    calculer_majoritaire_spec
      [⟨"positif", 0⟩, ⟨"positif", 0⟩, ⟨"positif", 1⟩] (by decide)
  have hs : r.sentiment = "positif" := hpos.mpr ⟨by decide, by decide⟩
  have hfil : ([(⟨"positif", 0⟩ : SentimentVote), ⟨"positif", 0⟩,
      ⟨"positif", 1⟩].filter (fun v => v.sentiment = "positif")) =
      [⟨"positif", 0⟩, ⟨"positif", 0⟩, ⟨"positif", 1⟩] := by decide
  have hmoy : r.confiance_moyenne = 0 := by
    rw [hs, hfil] at hconf
    rw [if_neg (by decide)] at hconf
    simp only [List.map_cons, List.map_nil, List.sum_cons, List.sum_nil,
      List.length_cons, List.length_nil] at hconf
    rw [hconf]
    norm_num [pyRound]
  refine ⟨r, hr, hs, ?_, hmoy, ?_⟩
  · rw [hs, hfil]
    norm_num
  · rw [hmoy]
    norm_num

/-- Every vote carries exactly one of the three labels, so the
per-label counts sum to the list length. -/
theorem countLabel_somme : ∀ (l : List SentimentVote),
    (∀ v ∈ l, v.sentiment = "positif" ∨ v.sentiment = "neutre" ∨
      v.sentiment = "négatif") →
    countLabel "positif" l + countLabel "neutre" l +
      countLabel "négatif" l = l.length := by
  intro l
  induction l with
  | nil => intro _; rfl
  | cons v t ih =>
    intro henum
    have hv := henum v (by simp)
    have ht := ih (fun w hw => henum w (by simp [hw]))
    rcases hv with h | h | h <;>
    · have e1 : countLabel "positif" (v :: t) =
          countLabel "positif" t + (if v.sentiment = "positif" then 1 else 0) := by
        by_cases hc : v.sentiment = "positif" <;>
          simp [countLabel, List.filter_cons, hc]
      have e2 : countLabel "neutre" (v :: t) =
          countLabel "neutre" t + (if v.sentiment = "neutre" then 1 else 0) := by
        by_cases hc : v.sentiment = "neutre" <;>
          simp [countLabel, List.filter_cons, hc]
      have e3 : countLabel "négatif" (v :: t) =
          countLabel "négatif" t + (if v.sentiment = "négatif" then 1 else 0) := by
        by_cases hc : v.sentiment = "négatif" <;>
          simp [countLabel, List.filter_cons, hc]
      rw [e1, e2, e3, List.length_cons]
      simp [h]
      omega

/-- C7: for every nonempty record set whose labels lie in the
three-label enum, `0 ≤ consensus_score ≤ 1` and the per-label vote
counts of the returned distribution sum to `total_providers`. -/
theorem C7_consensus_bornes (l : List SentimentVote) (hne : l ≠ [])
    (henum : ∀ v ∈ l, v.sentiment = "positif" ∨ v.sentiment = "neutre" ∨
      v.sentiment = "négatif") :
    ∃ r, calculerSentimentMajoritaire l = some r ∧
      0 ≤ r.consensus_score ∧ r.consensus_score ≤ 1 ∧
      r.distribution.1 + r.distribution.2.1 + r.distribution.2.2 =
        r.total_providers := by
  have hsum := countLabel_somme l henum
  obtain ⟨r, hr, hv, hp, hn, hg, _, _, _, htot, hscore, _⟩ :=
    calculer_majoritaire_spec l hne
  refine ⟨r, hr, ?_, ?_, ?_⟩
  · rw [hscore]
    positivity
  · rw [hscore]
    have hle : r.votes ≤ l.length := by
      have : countLabel r.sentiment l ≤ l.length :=
        List.length_filter_le _ _
      omega
    have hlpos : 0 < l.length := List.length_pos.mpr hne
    rw [div_le_one (by exact_mod_cast hlpos)]
    exact_mod_cast hle
  · have hdist : r.distribution = (countLabel "positif" l,
        countLabel "neutre" l, countLabel "négatif" l) := by
      have := hr
      unfold calculerSentimentMajoritaire at this
      rw [if_neg hne] at this
      simp only [] at this
      cases this
      rfl
    rw [hdist, htot]
    simpa using hsum

/-- Witness for C7 on a concrete two-vote set. -/
theorem C7_consensus_bornes_witness :
    ∃ r, calculerSentimentMajoritaire
        [⟨"positif", 90⟩, ⟨"négatif", 40⟩] = some r ∧
      0 ≤ r.consensus_score ∧ r.consensus_score ≤ 1 ∧
      r.distribution.1 + r.distribution.2.1 + r.distribution.2.2 =
        r.total_providers :=
  C7_consensus_bornes [⟨"positif", 90⟩, ⟨"négatif", 40⟩]
    (by decide) (by decide)

/-! ## Claim C8 — normalization is not idempotent -/

theorem toList_asString (l : List Char) : (List.asString l).toList = l := rfl

theorem asString_toList (s : String) : (s.toList).asString = s := rfl

theorem toNat_ofNat_valid {n : Nat} (h : Nat.isValidChar n) :
    (Char.ofNat n).toNat = n := by
  rw [Char.ofNat, dif_pos h]
  rfl

/-- On the two uppercase ranges, `pyLowerChar` shifts the code point
up by 32. -/
theorem pyLowerChar_toNat_shift {c : Char}
    (h : (65 ≤ c.toNat ∧ c.toNat ≤ 90) ∨
      (192 ≤ c.toNat ∧ c.toNat ≤ 222 ∧ c.toNat ≠ 215)) :
    (pyLowerChar c).toNat = c.toNat + 32 := by
  have hval : Nat.isValidChar (c.toNat + 32) := by
    left
    rcases h with h | h <;> omega
  unfold pyLowerChar
  rcases h with h | h
  · rw [if_pos h]
    exact toNat_ofNat_valid hval
  · rw [if_neg (by omega), if_pos h]
    exact toNat_ofNat_valid hval

/-- Off the two uppercase ranges, `pyLowerChar` is the identity. -/
theorem pyLowerChar_eq_self {c : Char}
    (h : ¬((65 ≤ c.toNat ∧ c.toNat ≤ 90) ∨
      (192 ≤ c.toNat ∧ c.toNat ≤ 222 ∧ c.toNat ≠ 215))) :
    pyLowerChar c = c := by
  unfold pyLowerChar
  rw [if_neg (by tauto), if_neg (by tauto)]

theorem pyLowerChar_idem (c : Char) :
    pyLowerChar (pyLowerChar c) = pyLowerChar c := by
  by_cases h : (65 ≤ c.toNat ∧ c.toNat ≤ 90) ∨
      (192 ≤ c.toNat ∧ c.toNat ≤ 222 ∧ c.toNat ≠ 215)
  · have ht := pyLowerChar_toNat_shift h
    apply pyLowerChar_eq_self
    rw [ht]
    rcases h with h | h <;> omega
  · rw [pyLowerChar_eq_self h, pyLowerChar_eq_self h]

/-- Lowercasing preserves the word-or-whitespace class. -/
theorem keep_pyLowerChar {c : Char}
    (h : pyWordChar c = true ∨ pyWs c = true) :
    pyWordChar (pyLowerChar c) = true ∨ pyWs (pyLowerChar c) = true := by
  by_cases hr : (65 ≤ c.toNat ∧ c.toNat ≤ 90) ∨
      (192 ≤ c.toNat ∧ c.toNat ≤ 222 ∧ c.toNat ≠ 215)
  · left
    have ht := pyLowerChar_toNat_shift hr
    unfold pyWordChar
    rw [ht]
    rcases hr with h | h <;> simp <;> omega
  · rw [pyLowerChar_eq_self hr]
    exact h

/-- Every character of `pyLower s` is in the image of `pyLowerChar`. -/
theorem mem_pyLower {c : Char} {s : String} (h : c ∈ (pyLower s).toList) :
    ∃ d, c = pyLowerChar d := by
  unfold pyLower at h
  rw [toList_asString] at h
  obtain ⟨d, _, rfl⟩ := List.mem_map.mp h
  exact ⟨d, rfl⟩

theorem pyStrip_toList_subset {s : String} :
    ∀ c ∈ (pyStrip s).toList, c ∈ s.toList := by
  intro c hc
  unfold pyStrip at hc
  rw [toList_asString] at hc
  exact (List.dropWhile_suffix pyWs).subset
    ((List.rdropWhile_prefix pyWs _).subset hc)

theorem pyRstrip_toList_subset {s : String} {chars : List Char} :
    ∀ c ∈ (pyRstrip s chars).toList, c ∈ s.toList := by
  intro c hc
  unfold pyRstrip at hc
  rw [toList_asString] at hc
  exact (List.rdropWhile_prefix _ _).subset hc

theorem pyStrip_eq_self {s : String}
    (h : ∀ c ∈ s.toList, pyWs c = false) : pyStrip s = s := by
  unfold pyStrip
  have h1 : s.toList.dropWhile pyWs = s.toList := by
    rw [List.dropWhile_eq_self_iff]
    intro hl
    simp only [Bool.not_eq_true]
    exact h _ (List.getElem_mem _)
  have h2 : s.toList.rdropWhile pyWs = s.toList := by
    rw [List.rdropWhile_eq_self_iff]
    intro hl
    simp only [Bool.not_eq_true]
    exact h _ (List.getLast_mem _)
  rw [h1, h2, asString_toList]

theorem pyRstrip_eq_self {s : String} {chars : List Char}
    (h : ∀ hl : s.toList ≠ [],
      chars.contains (s.toList.getLast hl) = false) :
    pyRstrip s chars = s := by
  unfold pyRstrip
  have h2 : s.toList.rdropWhile (fun c => chars.contains c) = s.toList := by
    rw [List.rdropWhile_eq_self_iff]
    intro hl
    simpa using h hl
  rw [h2, asString_toList]

/-- The last character surviving `rstrip` is not in the stripped set. -/
theorem pyRstrip_getLast?_not {s : String} {chars : List Char} {c : Char}
    (h : (pyRstrip s chars).toList.getLast? = some c) :
    chars.contains c = false := by
  unfold pyRstrip at h
  rw [toList_asString] at h
  have hne : s.toList.rdropWhile (fun c => chars.contains c) ≠ [] := by
    intro he
    rw [he] at h
    simp at h
  have hl := List.rdropWhile_last_not (fun c => chars.contains c) s.toList hne
  rw [List.getLast?_eq_getLast _ hne] at h
  cases h
  simpa using hl

/-- With no `?`/`&` in sight the tracking `re.sub` is the identity. -/
theorem subTrack_id {cs : List Char}
    (h : ∀ c ∈ cs, c ≠ '?' ∧ c ≠ '&') : subTrack cs = cs := by
  unfold subTrack
  induction cs with
  | nil => rfl
  | cons c t ih =>
    have hc := h c (by simp)
    show subTrackGo (t.length + 1) (c :: t) = c :: t
    rw [subTrackGo]
    rw [if_neg (by simp [hc.1, hc.2])]
    exact congrArg (c :: ·) (ih fun x hx => h x (by simp [hx]))

theorem pyStartsWith_https {u : String} :
    pyStartsWith ("https://" ++ u) "www." = false := by
  unfold pyStartsWith
  have : ("https://" ++ u).toList = "https://".toList ++ u.toList := rfl
  rw [this]
  rfl

/-- A string unchanged by each pass of `_nettoyer_url`: no whitespace,
no `?`/`&`, no stray trailing punctuation, no `www.` prefix. -/
theorem nettoyerUrl_fixed {u : String}
    (hws : ∀ c ∈ u.toList, pyWs c = false)
    (hqa : ∀ c ∈ u.toList, c ≠ '?' ∧ c ≠ '&')
    (hlast : ∀ c, u.toList.getLast? = some c →
      nettoyerRstripSet.contains c = false)
    (hwww : pyStartsWith u "www." = false) :
    nettoyerUrl u = u := by
  by_cases hu : u = ""
  · subst hu; rfl
  · unfold nettoyerUrl
    rw [if_neg hu]
    simp only []
    rw [pyStrip_eq_self hws,
      pyRstrip_eq_self (fun hl => hlast _ (List.getLast?_eq_getLast _ hl)),
      hwww]
    simp only [Bool.false_eq_true, if_false]
    rw [subTrack_id hqa, asString_toList]

/-- The value of `_nettoyer_url` on a whitespace-free, `?`/`&`-free
input: strip trailing punctuation, then maybe prefix `https://`. -/
theorem nettoyerUrl_eq {url : String} (hurl : url ≠ "")
    (hA : ∀ c ∈ url.toList, pyWs c = false ∧ c ≠ '?' ∧ c ≠ '&') :
    nettoyerUrl url =
      (if pyStartsWith (pyRstrip url nettoyerRstripSet) "www." then
        "https://" ++ pyRstrip url nettoyerRstripSet
      else pyRstrip url nettoyerRstripSet) := by
  have hstrip : pyStrip url = url :=
    pyStrip_eq_self (fun c hc => (hA c hc).1)
  have hqa1 : ∀ c ∈ (pyRstrip url nettoyerRstripSet).toList,
      c ≠ '?' ∧ c ≠ '&' :=
    fun c hc => (hA c (pyRstrip_toList_subset _ hc)).2
  unfold nettoyerUrl
  rw [if_neg hurl]
  simp only []
  rw [hstrip]
  by_cases hw : pyStartsWith (pyRstrip url nettoyerRstripSet) "www."
  · rw [if_pos hw]
    have hpre : ∀ d ∈ ("https://").toList, d ≠ '?' ∧ d ≠ '&' := by decide
    have hcs : ∀ c ∈ ("https://" ++ pyRstrip url nettoyerRstripSet).toList,
        c ≠ '?' ∧ c ≠ '&' := by
      intro c hc
      have happ : ("https://" ++ pyRstrip url nettoyerRstripSet).toList =
          ("https://").toList ++ (pyRstrip url nettoyerRstripSet).toList := rfl
      rw [happ] at hc
      rcases List.mem_append.mp hc with hc | hc
      · exact hpre c hc
      · exact hqa1 c hc
    rw [subTrack_id hcs, asString_toList]
  · rw [if_neg hw]
    rw [subTrack_id hqa1, asString_toList]

/-- `pyStrip` is idempotent. -/
theorem pyStrip_idem (s : String) : pyStrip (pyStrip s) = pyStrip s := by
  unfold pyStrip
  rw [toList_asString]
  have h1 : ((s.toList.dropWhile pyWs).rdropWhile pyWs).dropWhile pyWs =
      (s.toList.dropWhile pyWs).rdropWhile pyWs := by
    cases hA : (s.toList.dropWhile pyWs).rdropWhile pyWs with
    | nil => simp
    | cons a t2 =>
      obtain ⟨t, ht⟩ := List.rdropWhile_prefix pyWs (s.toList.dropWhile pyWs)
      rw [hA] at ht
      have hdw : s.toList.dropWhile pyWs = a :: (t2 ++ t) := by
        rw [← ht]
        simp
      have hpa : ¬ pyWs a = true := by
        intro hp
        have hidem := List.dropWhile_idempotent pyWs s.toList
        rw [hdw, List.dropWhile_cons, if_pos hp] at hidem
        have hlen := congrArg List.length hidem
        have hle := (List.dropWhile_suffix (l := t2 ++ t) pyWs).sublist.length_le
        simp only [List.length_cons] at hlen
        omega
      rw [List.dropWhile_cons, if_neg hpa]
  rw [h1, List.rdropWhile_idempotent]

theorem mem_pyLower_orig {c : Char} {s : String}
    (h : c ∈ (pyLower s).toList) : ∃ d ∈ s.toList, c = pyLowerChar d := by
  unfold pyLower at h
  rw [toList_asString] at h
  obtain ⟨d, hd, rfl⟩ := List.mem_map.mp h
  exact ⟨d, hd, rfl⟩

theorem pyLower_eq_self {s : String}
    (h : ∀ c ∈ s.toList, pyLowerChar c = c) : pyLower s = s := by
  unfold pyLower
  have : s.toList.map (fun a => a) = s.toList := by
    simp
  rw [List.map_congr_left h, this, asString_toList]

/-- On word-or-whitespace input the special-character removal of
`_normaliser_nom_marque` is a no-op. -/
theorem nomNormalise_keep {nom : String}
    (h : ∀ c ∈ nom.toList, pyWordChar c = true ∨ pyWs c = true) :
    nomNormalise nom = pyStrip (pyLower nom) := by
  unfold nomNormalise
  rw [List.filter_eq_self.mpr, asString_toList]
  intro a ha
  obtain ⟨d, hd, rfl⟩ := mem_pyLower_orig (pyStrip_toList_subset _ ha)
  simpa using keep_pyLowerChar (h d hd)

/-- C8 counterexample: both normalizations change their own output on
a second pass. For `_nettoyer_url`, removing `?utm_source=1` exposes a
trailing dot that only the next pass strips; for
`_normaliser_nom_marque`, deleting `-` exposes a leading space that
only the next pass strips. -/
theorem C8_normalisation_contre_exemple :
    (nettoyerUrl (nettoyerUrl "http://a.com/x.?utm_source=1") ≠
      nettoyerUrl "http://a.com/x.?utm_source=1") ∧
    (nettoyerUrl "http://a.com/x.?utm_source=1" = "http://a.com/x.") ∧
    (nettoyerUrl "http://a.com/x." = "http://a.com/x") ∧
    (normaliserNomMarque (normaliserNomMarque "- Boursorama") ≠
      normaliserNomMarque "- Boursorama") ∧
    (normaliserNomMarque "- Boursorama" = " boursorama") := by
  decide

/-- `_normaliser_nom_marque` is the alias lookup over `nomNormalise`. -/
theorem normaliserNomMarque_eq (nom : String) : normaliserNomMarque nom =
    (if nomNormalise nom = "hello bank" then "hellobank"
     else if nomNormalise nom = "credit agricole" then "creditagricole"
     else if nomNormalise nom = "societe generale" then "societegenerale"
     else if nomNormalise nom = "bnp paribas" then "bnpparibas"
     else nomNormalise nom) := rfl

/-- A string fixed by each step of `nomNormalise` is fixed by it. -/
theorem nomNormalise_fixed {y : String}
    (hylower : ∀ c ∈ y.toList, pyLowerChar c = c)
    (hykeep : ∀ c ∈ y.toList, pyWordChar c = true ∨ pyWs c = true)
    (hyst : pyStrip y = y) :
    nomNormalise y = y := by
  unfold nomNormalise
  rw [pyLower_eq_self hylower, hyst, List.filter_eq_self.mpr, asString_toList]
  intro a ha
  simpa using hykeep a ha

/-- C8 (amended): `normalize(normalize(x)) = normalize(x)` fails in
general for both `_nettoyer_url` and `_normaliser_nom_marque` (see the
counterexample); idempotence holds on the inputs where the passes
cannot interact: URLs containing no whitespace and no `?`/`&`
characters, and names made only of word characters and whitespace. -/
theorem C8_normalisation_idempotente_restreinte :
    (∀ url : String,
      (∀ c ∈ url.toList, pyWs c = false ∧ c ≠ '?' ∧ c ≠ '&') →
      nettoyerUrl (nettoyerUrl url) = nettoyerUrl url) ∧
    (∀ nom : String,
      (∀ c ∈ nom.toList, pyWordChar c = true ∨ pyWs c = true) →
      normaliserNomMarque (normaliserNomMarque nom) =
        normaliserNomMarque nom) := by
  constructor
  · intro url hA
    by_cases hurl : url = ""
    · subst hurl; rfl
    · rw [nettoyerUrl_eq hurl hA]
      have hws1 : ∀ c ∈ (pyRstrip url nettoyerRstripSet).toList,
          pyWs c = false :=
        fun c hc => (hA c (pyRstrip_toList_subset _ hc)).1
      have hqa1 : ∀ c ∈ (pyRstrip url nettoyerRstripSet).toList,
          c ≠ '?' ∧ c ≠ '&' :=
        fun c hc => (hA c (pyRstrip_toList_subset _ hc)).2
      have hlast1 : ∀ c, (pyRstrip url nettoyerRstripSet).toList.getLast? =
          some c → nettoyerRstripSet.contains c = false :=
        fun c hc => pyRstrip_getLast?_not hc
      by_cases hw : pyStartsWith (pyRstrip url nettoyerRstripSet) "www."
      · rw [if_pos hw]
        have happ : ("https://" ++ pyRstrip url nettoyerRstripSet).toList =
            ("https://").toList ++
              (pyRstrip url nettoyerRstripSet).toList := rfl
        have hne : (pyRstrip url nettoyerRstripSet).toList ≠ [] := by
          intro he
          unfold pyStartsWith at hw
          rw [he] at hw
          simp [List.isPrefixOf] at hw
        have hpre1 : ∀ d ∈ ("https://").toList, pyWs d = false := by decide
        have hpre2 : ∀ d ∈ ("https://").toList, d ≠ '?' ∧ d ≠ '&' := by
          decide
        apply nettoyerUrl_fixed
        · intro c hc
          rw [happ] at hc
          rcases List.mem_append.mp hc with hc | hc
          · exact hpre1 c hc
          · exact hws1 c hc
        · intro c hc
          rw [happ] at hc
          rcases List.mem_append.mp hc with hc | hc
          · exact hpre2 c hc
          · exact hqa1 c hc
        · intro c hc
          rw [happ, List.getLast?_append] at hc
          rw [List.getLast?_eq_getLast _ hne] at hc
          simp only [Option.or] at hc
          refine hlast1 c ?_
          rw [List.getLast?_eq_getLast _ hne]
          exact hc
        · exact pyStartsWith_https
      · rw [if_neg hw]
        apply nettoyerUrl_fixed hws1 hqa1 hlast1
        simpa using hw
  · intro nom h
    have hyv : nomNormalise nom = pyStrip (pyLower nom) := nomNormalise_keep h
    have hylower : ∀ c ∈ (nomNormalise nom).toList, pyLowerChar c = c := by
      rw [hyv]
      intro c hc
      obtain ⟨d, _, rfl⟩ := mem_pyLower_orig (pyStrip_toList_subset _ hc)
      exact pyLowerChar_idem d
    have hykeep : ∀ c ∈ (nomNormalise nom).toList,
        pyWordChar c = true ∨ pyWs c = true := by
      rw [hyv]
      intro c hc
      obtain ⟨d, hd, rfl⟩ := mem_pyLower_orig (pyStrip_toList_subset _ hc)
      exact keep_pyLowerChar (h d hd)
    have hgy : nomNormalise (nomNormalise nom) = nomNormalise nom := by
      refine nomNormalise_fixed hylower hykeep ?_
      rw [hyv, pyStrip_idem]
    by_cases h1 : nomNormalise nom = "hello bank"
    · have hz : normaliserNomMarque nom = "hellobank" := by
        rw [normaliserNomMarque_eq nom, if_pos h1]
      rw [hz]
      decide
    · by_cases h2 : nomNormalise nom = "credit agricole"
      · have hz : normaliserNomMarque nom = "creditagricole" := by
          rw [normaliserNomMarque_eq nom, if_neg h1, if_pos h2]
        rw [hz]
        decide
      · by_cases h3 : nomNormalise nom = "societe generale"
        · have hz : normaliserNomMarque nom = "societegenerale" := by
            rw [normaliserNomMarque_eq nom, if_neg h1, if_neg h2, if_pos h3]
          rw [hz]
          decide
        · by_cases h4 : nomNormalise nom = "bnp paribas"
          · have hz : normaliserNomMarque nom = "bnpparibas" := by
              rw [normaliserNomMarque_eq nom, if_neg h1, if_neg h2,
                if_neg h3, if_pos h4]
            rw [hz]
            decide
          · have hz : normaliserNomMarque nom = nomNormalise nom := by
              rw [normaliserNomMarque_eq nom, if_neg h1, if_neg h2,
                if_neg h3, if_neg h4]
            rw [hz, normaliserNomMarque_eq (nomNormalise nom), hgy,
              if_neg h1, if_neg h2, if_neg h3, if_neg h4]

/-- Witness for the restricted idempotence of C8 at concrete inputs. -/
theorem C8_normalisation_idempotente_witness :
    nettoyerUrl (nettoyerUrl "https://www.site.fr/guide-2024") =
      nettoyerUrl "https://www.site.fr/guide-2024" ∧
    normaliserNomMarque (normaliserNomMarque "Hello Bank") =
      normaliserNomMarque "Hello Bank" :=
  ⟨C8_normalisation_idempotente_restreinte.1 "https://www.site.fr/guide-2024"
      (by decide),
   C8_normalisation_idempotente_restreinte.2 "Hello Bank" (by decide)⟩

/-! ## Claims C3 and C9 — cross-backend consolidation -/

/-- The providers contributing the records of key `k` in a consolidated
list. -/
def providersOf (keyf : Entite → String) (l : List Entite) (k : String) :
    List String :=
  (l.filter (fun x => keyf x = k)).flatMap (fun x => x.providers_detection)

theorem providersOf_nil (keyf k) : providersOf keyf [] k = [] := rfl

theorem providersOf_cons (keyf x l k) :
    providersOf keyf (x :: l) k =
      (if keyf x = k then x.providers_detection else []) ++
        providersOf keyf l k := by
  unfold providersOf
  rw [List.filter_cons]
  by_cases h : keyf x = k
  · simp [h]
  · simp [h]

theorem providersOf_eq_nil {keyf l k} (h : ∀ x ∈ l, keyf x ≠ k) :
    providersOf keyf l k = [] := by
  unfold providersOf
  rw [List.filter_eq_nil_iff.mpr]
  · rfl
  · intro x hx
    simp [h x hx]

/-- Keys are unchanged by the merge pass of `_consolider_entites`. -/
theorem map_keyf_merge {keyf : Entite → String}
    (hmerge : ∀ x p e, keyf (mergeEntite x p e) = keyf x)
    (acc : List Entite) (cle : String) (p : String) (e : Entite) :
    (acc.map (fun x => if keyf x = cle then mergeEntite x p e else x)).map
      keyf = acc.map keyf := by
  rw [List.map_map]
  apply List.map_congr_left
  intro x _
  by_cases h : keyf x = cle <;> simp [h, hmerge]

/-- Provider lists after the merge pass: the single record holding
`cle` (keys are nodup) gains `p`. -/
theorem providersOf_map_merge {keyf : Entite → String}
    (hmerge : ∀ x p e, keyf (mergeEntite x p e) = keyf x)
    (p : String) (e : Entite) (cle : String) :
    ∀ (acc : List Entite), (acc.map keyf).Nodup → ∀ k,
    providersOf keyf
        (acc.map (fun x => if keyf x = cle then mergeEntite x p e else x))
        k =
      providersOf keyf acc k ++
        (if k = cle ∧ acc.any (fun x => keyf x = cle) then [p] else []) := by
  intro acc
  induction acc with
  | nil =>
    intro _ k
    simp [providersOf_nil]
  | cons x l ih =>
    intro hnd k
    have hndl : (l.map keyf).Nodup := by
      simp only [List.map_cons, List.nodup_cons] at hnd
      exact hnd.2
    have hxnotl : keyf x ∉ l.map keyf := by
      simp only [List.map_cons, List.nodup_cons] at hnd
      exact hnd.1
    rw [List.map_cons, providersOf_cons, providersOf_cons, ih hndl k]
    by_cases hx : keyf x = cle
    · have hlnone : (l.any fun y => keyf y = cle) = false := by
        rw [List.any_eq_false]
        intro y hy
        simp only [decide_eq_true_eq]
        intro hyc
        exact hxnotl (hx ▸ hyc ▸ List.mem_map_of_mem keyf hy)
      have hpl : providersOf keyf l cle = [] := by
        apply providersOf_eq_nil
        intro y hy hyc
        simp only [List.any_eq_false, decide_eq_true_eq] at hlnone
        exact hlnone y hy hyc
      rw [if_pos hx]
      by_cases hk : k = cle
      · subst hk
        rw [if_pos (show keyf (mergeEntite x p e) = k by rw [hmerge]; exact hx)]
        have hprov : (mergeEntite x p e).providers_detection =
            x.providers_detection ++ [p] := rfl
        rw [hprov, hpl]
        simp [hx, hlnone, List.any_cons]
      · have hck : ¬ cle = k := fun h => hk h.symm
        rw [if_neg (show ¬ keyf (mergeEntite x p e) = k by
            rw [hmerge, hx]; exact hck),
          if_neg (show ¬ keyf x = k by rw [hx]; exact hck)]
        simp [hk]
    · by_cases hxk : keyf x = k
      · have hkc : ¬ k = cle := fun h => hx (by rw [hxk, h])
        simp [hx, hxk, hkc, List.any_cons, List.append_assoc]
      · simp [hx, hxk, List.any_cons, List.append_assoc]

theorem providersOf_append (keyf) (l1 l2 : List Entite) (k) :
    providersOf keyf (l1 ++ l2) k =
      providersOf keyf l1 k ++ providersOf keyf l2 k := by
  unfold providersOf
  rw [List.filter_append, List.flatMap_append]

/-- One `_consolider_entites` iteration keeps the keys nodup. -/
theorem consoliderStep_nodup {keyf : Entite → String}
    (hmerge : ∀ x p e, keyf (mergeEntite x p e) = keyf x)
    (hbase : ∀ e p, keyf { e with providers_detection := [p] } = keyf e)
    {acc : List Entite} (hnd : (acc.map keyf).Nodup)
    (pe : String × Entite) :
    ((consoliderStep keyf acc pe).map keyf).Nodup := by
  unfold consoliderStep
  simp only []
  by_cases hc : keyf pe.2 = ""
  · rw [if_pos hc]
    exact hnd
  · rw [if_neg hc]
    by_cases hany : acc.any (fun x => keyf x = keyf pe.2)
    · rw [if_pos hany, map_keyf_merge hmerge]
      exact hnd
    · rw [if_neg hany]
      have hnotin : keyf pe.2 ∉ acc.map keyf := by
        intro hmem
        obtain ⟨x, hx, hxe⟩ := List.mem_map.mp hmem
        exact hany (List.any_eq_true.mpr ⟨x, hx, by simp [hxe]⟩)
      simp [List.map_append, hbase, List.nodup_append, hnotin, hnd]

/-- Key membership after one `_consolider_entites` iteration. -/
theorem consoliderStep_mem_keys {keyf : Entite → String}
    (hmerge : ∀ x p e, keyf (mergeEntite x p e) = keyf x)
    (hbase : ∀ e p, keyf { e with providers_detection := [p] } = keyf e)
    (acc : List Entite) (pe : String × Entite) (k : String) :
    (k ∈ (consoliderStep keyf acc pe).map keyf) ↔
      k ∈ acc.map keyf ∨ (k ≠ "" ∧ k = keyf pe.2) := by
  unfold consoliderStep
  simp only []
  by_cases hc : keyf pe.2 = ""
  · rw [if_pos hc]
    constructor
    · exact Or.inl
    · rintro (h | ⟨hne, heq⟩)
      · exact h
      · exact absurd (heq.trans hc) hne
  · rw [if_neg hc]
    by_cases hany : acc.any (fun x => keyf x = keyf pe.2)
    · rw [if_pos hany, map_keyf_merge hmerge]
      constructor
      · exact Or.inl
      · rintro (h | ⟨_, heq⟩)
        · exact h
        · obtain ⟨x, hx, hxe⟩ := List.any_eq_true.mp hany
          simp only [decide_eq_true_eq] at hxe
          exact heq ▸ (hxe ▸ List.mem_map_of_mem keyf hx)
    · rw [if_neg hany, List.map_append]
      simp only [List.map_cons, List.map_nil, hbase, List.mem_append,
        List.mem_singleton]
      constructor
      · rintro (h | h)
        · exact Or.inl h
        · exact Or.inr ⟨fun he => hc (h ▸ he), h⟩
      · rintro (h | ⟨_, heq⟩)
        · exact Or.inl h
        · exact Or.inr heq

/-- Provider lists after one `_consolider_entites` iteration. -/
theorem consoliderStep_providers {keyf : Entite → String}
    (hmerge : ∀ x p e, keyf (mergeEntite x p e) = keyf x)
    (hbase : ∀ e p, keyf { e with providers_detection := [p] } = keyf e)
    {acc : List Entite} (hnd : (acc.map keyf).Nodup)
    (pe : String × Entite) {k : String} (hk : k ≠ "") :
    providersOf keyf (consoliderStep keyf acc pe) k =
      providersOf keyf acc k ++
        (if keyf pe.2 = k then [pe.1] else []) := by
  unfold consoliderStep
  simp only []
  by_cases hc : keyf pe.2 = ""
  · rw [if_pos hc]
    rw [if_neg (show ¬ keyf pe.2 = k by rw [hc]; exact fun h => hk h.symm)]
    simp
  · rw [if_neg hc]
    by_cases hany : acc.any (fun x => keyf x = keyf pe.2)
    · rw [if_pos hany]
      rw [providersOf_map_merge hmerge pe.1 pe.2 (keyf pe.2) acc hnd k]
      by_cases hkk : keyf pe.2 = k
      · rw [if_pos ⟨hkk.symm, hany⟩, if_pos hkk]
      · rw [if_neg (fun h => hkk h.1.symm), if_neg hkk]
    · rw [if_neg hany, providersOf_append, providersOf_cons,
        providersOf_nil, hbase]
      by_cases hkk : keyf pe.2 = k <;> simp [hkk]

/-- Full characterisation of the `_consolider_entites` fold: starting from an
accumulator with nodup keys, the result has nodup keys, its key set is the
old key set plus the non-empty keys of the entries, and the provider list of
each non-empty key is the old one extended by the providers of the entries
carrying that key, in entry order. -/
theorem consolider_foldl_spec {keyf : Entite → String}
    (hmerge : ∀ x p e, keyf (mergeEntite x p e) = keyf x)
    (hbase : ∀ e p, keyf { e with providers_detection := [p] } = keyf e)
    (entries : List (String × Entite)) :
    ∀ acc : List Entite, (acc.map keyf).Nodup →
      (((entries.foldl (consoliderStep keyf) acc).map keyf).Nodup ∧
       (∀ k, k ∈ (entries.foldl (consoliderStep keyf) acc).map keyf ↔
          k ∈ acc.map keyf ∨
            (k ≠ "" ∧ k ∈ entries.map (fun pe => keyf pe.2))) ∧
       (∀ k, k ≠ "" →
          providersOf keyf (entries.foldl (consoliderStep keyf) acc) k =
            providersOf keyf acc k ++
              entries.filterMap
                (fun pe => if keyf pe.2 = k then some pe.1 else none))) := by
  induction entries with
  | nil =>
    intro acc hnd
    refine ⟨hnd, fun k => ?_, fun k _ => by simp⟩
    simp
  | cons pe rest ih =>
    intro acc hnd
    have hnd1 : ((consoliderStep keyf acc pe).map keyf).Nodup :=
      consoliderStep_nodup hmerge hbase hnd pe
    obtain ⟨h1, h2, h3⟩ := ih (consoliderStep keyf acc pe) hnd1
    refine ⟨h1, fun k => ?_, fun k hk => ?_⟩
    · rw [List.foldl_cons, h2 k, consoliderStep_mem_keys hmerge hbase]
      simp only [List.map_cons, List.mem_cons]
      constructor
      · rintro ((h | ⟨hne, heq⟩) | ⟨hne, hmem⟩)
        · exact Or.inl h
        · exact Or.inr ⟨hne, Or.inl heq⟩
        · exact Or.inr ⟨hne, Or.inr hmem⟩
      · rintro (h | ⟨hne, (heq | hmem)⟩)
        · exact Or.inl (Or.inl h)
        · exact Or.inl (Or.inr ⟨hne, heq⟩)
        · exact Or.inr ⟨hne, hmem⟩
    · rw [List.foldl_cons, h3 k hk,
        consoliderStep_providers hmerge hbase hnd pe hk,
        List.filterMap_cons, List.append_assoc]
      by_cases hkk : keyf pe.2 = k
      · rw [if_pos hkk, if_pos hkk]
        rfl
      · rw [if_neg hkk, if_neg hkk]
        rfl

/-- The average-confidence expression only depends on the sum and
length of the confidence list. -/
theorem moyenne_perm_aux {A B : List ℤ} (hs : A.sum = B.sum)
    (hl : A.length = B.length) :
    (if A = [] then (50 : ℚ) else (A.sum : ℚ) / A.length) =
    (if B = [] then (50 : ℚ) else (B.sum : ℚ) / B.length) := by
  by_cases hc : A = []
  · have hc2 : B = [] := List.length_eq_zero.mp (by rw [← hl, hc]; rfl)
    rw [if_pos hc, if_pos hc2]
  · have hc2 : ¬ B = [] :=
      fun he => hc (List.length_eq_zero.mp (by rw [hl, he]; rfl))
    rw [if_neg hc, if_neg hc2, hs, hl]

/-- `calculer_sentiment_majoritaire` only depends on the multiset of
votes: it is invariant under permutation of the record list. -/
theorem calculer_majoritaire_perm {l1 l2 : List SentimentVote}
    (h : l1.Perm l2) :
    calculerSentimentMajoritaire l1 = calculerSentimentMajoritaire l2 := by
  have hlen : l1.length = l2.length := h.length_eq
  have hcount : ∀ lbl, countLabel lbl l1 = countLabel lbl l2 := by
    intro lbl
    unfold countLabel
    exact (h.filter _).length_eq
  have hsum : ∀ s : String,
      ((l1.filter (fun v => v.sentiment = s)).map (fun v => v.confiance)).sum
        = ((l2.filter (fun v => v.sentiment = s)).map
            (fun v => v.confiance)).sum :=
    fun s => ((h.filter _).map _).sum_eq
  have hflen : ∀ s : String,
      ((l1.filter (fun v => v.sentiment = s)).map
          (fun v => v.confiance)).length
        = ((l2.filter (fun v => v.sentiment = s)).map
            (fun v => v.confiance)).length :=
    fun s => ((h.filter _).map _).length_eq
  by_cases h1 : l1 = []
  · have h2 : l2 = [] := List.length_eq_zero.mp (by rw [← hlen, h1]; rfl)
    rw [h1, h2]
  · have h2 : l2 ≠ [] :=
      fun he => h1 (List.length_eq_zero.mp (by rw [hlen, he]; rfl))
    unfold calculerSentimentMajoritaire
    simp only [if_neg h1, if_neg h2]
    by_cases hab : countLabel "positif" l1 < countLabel "neutre" l1
    · have hab2 : countLabel "positif" l2 < countLabel "neutre" l2 := by
        rw [← hcount, ← hcount]
        exact hab
      by_cases hbc : countLabel "neutre" l1 < countLabel "négatif" l1
      · have hbc2 : countLabel "neutre" l2 < countLabel "négatif" l2 := by
          rw [← hcount, ← hcount]
          exact hbc
        simp only [if_pos hab, if_pos hab2, if_pos hbc, if_pos hbc2]
        rw [hcount "positif", hcount "neutre", hcount "négatif", hlen,
          moyenne_perm_aux (hsum "négatif") (hflen "négatif")]
      · have hbc2 : ¬ countLabel "neutre" l2 < countLabel "négatif" l2 := by
          rw [← hcount, ← hcount]
          exact hbc
        simp only [if_pos hab, if_pos hab2, if_neg hbc, if_neg hbc2]
        rw [hcount "positif", hcount "neutre", hcount "négatif", hlen,
          moyenne_perm_aux (hsum "neutre") (hflen "neutre")]
    · have hab2 : ¬ countLabel "positif" l2 < countLabel "neutre" l2 := by
        rw [← hcount, ← hcount]
        exact hab
      by_cases hac : countLabel "positif" l1 < countLabel "négatif" l1
      · have hac2 : countLabel "positif" l2 < countLabel "négatif" l2 := by
          rw [← hcount, ← hcount]
          exact hac
        simp only [if_neg hab, if_neg hab2, if_pos hac, if_pos hac2]
        rw [hcount "positif", hcount "neutre", hcount "négatif", hlen,
          moyenne_perm_aux (hsum "négatif") (hflen "négatif")]
      · have hac2 : ¬ countLabel "positif" l2 < countLabel "négatif" l2 := by
          rw [← hcount, ← hcount]
          exact hac
        simp only [if_neg hab, if_neg hab2, if_neg hac, if_neg hac2]
        rw [hcount "positif", hcount "neutre", hcount "négatif", hlen,
          moyenne_perm_aux (hsum "positif") (hflen "positif")]

/-- C3 (amended): `_consolider_entites` deduplicates on the **raw** url
string, not on a normalized form: the output urls are pairwise distinct
and are exactly the non-empty urls occurring in the input, and each
output record credits, in entry order, exactly the providers whose
entries carry that same raw url. Url variants that are equal only after
normalization (casing, trailing slash) are kept as separate records. -/
theorem C3_consolidation_cle_exacte (epp : List (String × List Entite)) :
    ((consoliderEntites (fun e => e.url) epp).map (fun e => e.url)).Nodup ∧
    (∀ k, k ∈ (consoliderEntites (fun e => e.url) epp).map
        (fun e => e.url) ↔
      (k ≠ "" ∧
        k ∈ (epp.flatMap (fun pe => pe.2.map (fun e => (pe.1, e)))).map
          (fun pe => pe.2.url))) ∧
    (∀ k, k ≠ "" →
      providersOf (fun e => e.url) (consoliderEntites (fun e => e.url) epp)
          k =
        (epp.flatMap (fun pe => pe.2.map (fun e => (pe.1, e)))).filterMap
          (fun pe => if pe.2.url = k then some pe.1 else none)) := by
  have hmerge : ∀ (x : Entite) (p : String) (e : Entite),
      (mergeEntite x p e).url = x.url := fun _ _ _ => rfl
  have hbase : ∀ (e : Entite) (p : String),
      ({ e with providers_detection := [p] } : Entite).url = e.url :=
    fun _ _ => rfl
  obtain ⟨h1, h2, h3⟩ := consolider_foldl_spec hmerge hbase
    (epp.flatMap (fun pe => pe.2.map (fun e => (pe.1, e)))) [] (by simp)
  unfold consoliderEntites
  refine ⟨h1, fun k => ?_, fun k hk => ?_⟩
  · rw [h2 k]
    simp
  · rw [h3 k hk]
    simp [providersOf_nil]

/-- C3 counterexample: two sources whose urls are equal after
lowercasing and dropping the trailing slash — each already a fixed point
of `_nettoyer_url`, so upstream cleaning does not merge them either —
produce **two** consolidated records, each credited to one backend only,
instead of the single record with the union of backends that the claim
asserts. -/
theorem C3_consolidation_contre_exemple :
    (nettoyerUrl "https://Example.com/Page/" = "https://Example.com/Page/" ∧
     nettoyerUrl "https://example.com/page" = "https://example.com/page") ∧
    (("https://Example.com/Page/").toList.map pyLowerChar).rdropWhile
        (fun c => c = '/') =
      (("https://example.com/page").toList.map pyLowerChar).rdropWhile
        (fun c => c = '/') ∧
    (consoliderEntites (fun e => e.url)
      [("openai", [{ url := "https://Example.com/Page/" }]),
       ("anthropic", [{ url := "https://example.com/page" }])]).map
        (fun e => (e.url, e.providers_detection)) =
      [("https://Example.com/Page/", ["openai"]),
       ("https://example.com/page", ["anthropic"])] := by
  exact ⟨⟨by decide, by decide⟩, by decide, by decide⟩

/-- Witness for C3 at a concrete input: the same url reported by two
backends yields one record credited to both. -/
theorem C3_consolidation_cle_exacte_witness :
    ("https://u.com" : String) ≠ "" ∧
    providersOf (fun e => e.url)
      (consoliderEntites (fun e => e.url)
        [("openai", [{ url := "https://u.com" }]),
         ("anthropic", [{ url := "https://u.com" }])]) "https://u.com" =
      ["openai", "anthropic"] :=
  ⟨by decide,
    ((C3_consolidation_cle_exacte
      [("openai", [{ url := "https://u.com" }]),
       ("anthropic", [{ url := "https://u.com" }])]).2.2
      "https://u.com" (by decide)).trans (by decide)⟩

/-- C9 (amended): permuting the order in which the backends' results
arrive preserves the consolidated **key set**, preserves each key's set
of contributing backends (as a multiset: the provider lists are
permutations of each other), and leaves the sentiment consensus of every
subject unchanged — but it does **not** preserve the merged fields of
the consolidated records, which are copied from whichever backend comes
first (see the counterexample). -/
theorem C9_consolidation_permutation
    {epp1 epp2 : List (String × List Entite)} (hp : epp1.Perm epp2) :
    (∀ k, k ∈ (consoliderEntites (fun e => e.url) epp1).map
        (fun e => e.url) ↔
      k ∈ (consoliderEntites (fun e => e.url) epp2).map (fun e => e.url)) ∧
    (∀ k, k ≠ "" →
      (providersOf (fun e => e.url)
          (consoliderEntites (fun e => e.url) epp1) k).Perm
        (providersOf (fun e => e.url)
          (consoliderEntites (fun e => e.url) epp2) k)) ∧
    (∀ v1 v2 : List SentimentVote, v1.Perm v2 →
      calculerSentimentMajoritaire v1 = calculerSentimentMajoritaire v2) := by
  have hmerge : ∀ (x : Entite) (p : String) (e : Entite),
      (mergeEntite x p e).url = x.url := fun _ _ _ => rfl
  have hbase : ∀ (e : Entite) (p : String),
      ({ e with providers_detection := [p] } : Entite).url = e.url :=
    fun _ _ => rfl
  have hpe : (epp1.flatMap (fun pe => pe.2.map (fun e => (pe.1, e)))).Perm
      (epp2.flatMap (fun pe => pe.2.map (fun e => (pe.1, e)))) :=
    hp.flatMap_right _
  obtain ⟨_, h12, h13⟩ := consolider_foldl_spec hmerge hbase
    (epp1.flatMap (fun pe => pe.2.map (fun e => (pe.1, e)))) [] (by simp)
  obtain ⟨_, h22, h23⟩ := consolider_foldl_spec hmerge hbase
    (epp2.flatMap (fun pe => pe.2.map (fun e => (pe.1, e)))) [] (by simp)
  unfold consoliderEntites
  refine ⟨fun k => ?_, fun k hk => ?_, fun v1 v2 hv => ?_⟩
  · rw [h12 k, h22 k]
    have hmem := (hpe.map (fun pe => pe.2.url)).mem_iff (a := k)
    simp only [hmem]
  · rw [h13 k hk, h23 k hk]
    simp only [providersOf_nil, List.nil_append]
    exact hpe.filterMap _
  · exact calculer_majoritaire_perm hv

/-- C5: the `[0,1]` invariant on `extraction_confidence` fails.
`_calculate_extraction_confidence` does clamp (here to `9/10`), but
`_advanced_url_validation` then adds its path bonuses (`+0.1` for a
non-trivial path, `+0.05` for a relevant keyword) without re-clamping,
so a kept source leaves the validation step with confidence
`21/20 > 1`. -/
theorem C5_confiance_depassement :
    calculateExtractionConfidence
        "https://www.example-site.com/guide-assurance-vie"
        "Source: https://www.example-site.com/guide-assurance-vie"
      = 9/10 ∧
    (advancedUrlValidation
        [{ url := "https://www.example-site.com/guide-assurance-vie",
           extraction_confidence := 9/10 }]).map
        (fun s => s.extraction_confidence) = [21/20] ∧
    (1 : ℚ) < 21/20 := by
  refine ⟨?_, ?_, by norm_num⟩
  · simp +decide [calculateExtractionConfidence]
    norm_num
  · simp +decide [advancedUrlValidation, advancedValidateOne]
    norm_num

/-- One `_valider_et_nettoyer_urls` iteration grows the kept list by at
most one source. -/
theorem validerStep_length_le (a : String → Bool)
    (st : List String × List Entite) (x : Entite) :
    (validerStep a st x).2.length ≤ st.2.length + 1 := by
  unfold validerStep
  simp only []
  split
  · split
    · simp
    · show st.2.length ≤ st.2.length + 1
      omega
  · omega

/-- `_valider_et_nettoyer_urls` never returns more sources than it was
given. -/
theorem valider_length_le (a : String → Bool) (l : List Entite) :
    (validerEtNettoyerUrls a l).length ≤ l.length := by
  have key : ∀ l : List Entite, ∀ st : List String × List Entite,
      ((l.foldl (validerStep a) st).2).length ≤ st.2.length + l.length := by
    intro l
    induction l with
    | nil => intro st; simp
    | cons x xs ih =>
      intro st
      rw [List.foldl_cons]
      calc ((xs.foldl (validerStep a) (validerStep a st x)).2).length
          ≤ (validerStep a st x).2.length + xs.length := ih _
        _ ≤ (st.2.length + 1) + xs.length := by
            have := validerStep_length_le a st x
            omega
        _ ≤ st.2.length + (x :: xs).length := by
            rw [List.length_cons]
            omega
  have h := key l ([], [])
  simpa [validerEtNettoyerUrls] using h

/-- C6: the four-tier cascade guards of `extraire_urls_depuis_reponse`:
tier 2 runs iff the tier-1 parse found fewer than 2 URLs; tier 3 runs
iff the candidate list is still empty after tier 2; tier 4 runs iff
fewer than 2 exploitable URLs remain after validation; and as soon as
the candidates accumulated through any tier validate to at least 2
exploitable URLs, every later tier is skipped and its parse result does
not influence the output. -/
theorem C6_cascade_quatre_niveaux (accessible : String → Bool)
    (t1 t2 t3 t4 : List Entite) :
    (tier2Lancee t1 = true ↔ t1.length < 2) ∧
    (tier3Lancee t1 t2 = true ↔ sourcesApresTier2 t1 t2 = []) ∧
    (tier4Lancee accessible t1 t2 t3 = true ↔
      ((validerEtNettoyerUrls accessible
          (sourcesApresTier3 t1 t2 t3)).filter
        (fun s => s.exploitable_seo)).length < 2) ∧
    (2 ≤ ((validerEtNettoyerUrls accessible t1).filter
        (fun s => s.exploitable_seo)).length →
      tier2Lancee t1 = false ∧ tier3Lancee t1 t2 = false ∧
      tier4Lancee accessible t1 t2 t3 = false ∧
      extraireUrlsDepuisReponse accessible t1 t2 t3 t4 =
        extraireUrlsDepuisReponse accessible t1 [] [] []) ∧
    (2 ≤ ((validerEtNettoyerUrls accessible
          (sourcesApresTier2 t1 t2)).filter
        (fun s => s.exploitable_seo)).length →
      tier3Lancee t1 t2 = false ∧
      tier4Lancee accessible t1 t2 t3 = false ∧
      extraireUrlsDepuisReponse accessible t1 t2 t3 t4 =
        extraireUrlsDepuisReponse accessible t1 t2 [] []) ∧
    (2 ≤ (urlsExploitables accessible t1 t2 t3).length →
      tier4Lancee accessible t1 t2 t3 = false ∧
      extraireUrlsDepuisReponse accessible t1 t2 t3 t4 =
        extraireUrlsDepuisReponse accessible t1 t2 t3 []) := by
  refine ⟨by simp [tier2Lancee],
    by simp [tier3Lancee, Nat.lt_one_iff, List.length_eq_zero],
    by simp [tier4Lancee, urlsExploitables],
    ?_, ?_, ?_⟩
  · intro h
    have hlen2 : 2 ≤ t1.length :=
      le_trans h (le_trans (List.length_filter_le _ _)
        (valider_length_le accessible t1))
    have h2 : tier2Lancee t1 = false := by
      simp only [tier2Lancee, decide_eq_false_iff_not]
      omega
    have hs2 : sourcesApresTier2 t1 t2 = t1 := by
      unfold sourcesApresTier2
      rw [if_neg (by omega)]
    have h3 : tier3Lancee t1 t2 = false := by
      simp only [tier3Lancee, hs2, decide_eq_false_iff_not]
      omega
    have hs3 : sourcesApresTier3 t1 t2 t3 = t1 := by
      unfold sourcesApresTier3
      simp only [hs2]
      rw [if_neg (by omega)]
    have hs2b : sourcesApresTier2 t1 [] = t1 := by
      unfold sourcesApresTier2
      rw [if_neg (by omega)]
    have hs3b : sourcesApresTier3 t1 [] [] = t1 := by
      unfold sourcesApresTier3
      simp only [hs2b]
      rw [if_neg (by omega)]
    have h4 : tier4Lancee accessible t1 t2 t3 = false := by
      simp only [tier4Lancee, urlsExploitables, hs3,
        decide_eq_false_iff_not]
      omega
    refine ⟨h2, h3, h4, ?_⟩
    unfold extraireUrlsDepuisReponse
    simp only [hs3, hs3b]
    rw [if_neg (fun hh => absurd hh.1 (by simp [h4])),
      if_neg (fun hh => hh.2 rfl)]
  · intro h
    have hlen1 : 1 ≤ (sourcesApresTier2 t1 t2).length :=
      le_trans (by omega)
        (le_trans h (le_trans (List.length_filter_le _ _)
          (valider_length_le accessible _)))
    have h3 : tier3Lancee t1 t2 = false := by
      simp only [tier3Lancee, decide_eq_false_iff_not]
      omega
    have hs3 : sourcesApresTier3 t1 t2 t3 = sourcesApresTier2 t1 t2 := by
      unfold sourcesApresTier3
      simp only []
      rw [if_neg (by omega)]
    have hs3b : sourcesApresTier3 t1 t2 [] = sourcesApresTier2 t1 t2 := by
      unfold sourcesApresTier3
      simp only []
      rw [if_neg (by omega)]
    have h4 : tier4Lancee accessible t1 t2 t3 = false := by
      simp only [tier4Lancee, urlsExploitables, hs3,
        decide_eq_false_iff_not]
      omega
    refine ⟨h3, h4, ?_⟩
    unfold extraireUrlsDepuisReponse
    simp only [hs3, hs3b]
    rw [if_neg (fun hh => absurd hh.1 (by simp [h4])),
      if_neg (fun hh => hh.2 rfl)]
  · intro h
    have h4 : tier4Lancee accessible t1 t2 t3 = false := by
      simp only [tier4Lancee, decide_eq_false_iff_not]
      omega
    refine ⟨h4, ?_⟩
    unfold extraireUrlsDepuisReponse
    simp only []
    rw [if_neg (fun hh => absurd hh.1 (by simp [h4])),
      if_neg (fun hh => hh.2 rfl)]

/-- Witness for C6: a tier-1 parse with two exploitable URLs skips every
later tier, so the later tiers' parse results do not change the
output. -/
theorem C6_cascade_quatre_niveaux_witness :
    2 ≤ ((validerEtNettoyerUrls (fun _ => false)
        [{ url := "https://site-a.com/guide-pratique" },
         { url := "https://site-b.com/article-conseil" }]).filter
        (fun s => s.exploitable_seo)).length ∧
    (tier2Lancee [{ url := "https://site-a.com/guide-pratique" },
        { url := "https://site-b.com/article-conseil" }] = false ∧
     tier3Lancee [{ url := "https://site-a.com/guide-pratique" },
        { url := "https://site-b.com/article-conseil" }]
        [{ url := "https://t2.com/x" }] = false ∧
     tier4Lancee (fun _ => false)
        [{ url := "https://site-a.com/guide-pratique" },
         { url := "https://site-b.com/article-conseil" }]
        [{ url := "https://t2.com/x" }] [{ url := "https://t3.com/x" }]
        = false ∧
     extraireUrlsDepuisReponse (fun _ => false)
        [{ url := "https://site-a.com/guide-pratique" },
         { url := "https://site-b.com/article-conseil" }]
        [{ url := "https://t2.com/x" }] [{ url := "https://t3.com/x" }]
        [{ url := "https://t4.com/x" }] =
      extraireUrlsDepuisReponse (fun _ => false)
        [{ url := "https://site-a.com/guide-pratique" },
         { url := "https://site-b.com/article-conseil" }] [] [] []) :=
  ⟨by decide,
    (C6_cascade_quatre_niveaux (fun _ => false)
        [{ url := "https://site-a.com/guide-pratique" },
         { url := "https://site-b.com/article-conseil" }]
        [{ url := "https://t2.com/x" }] [{ url := "https://t3.com/x" }]
        [{ url := "https://t4.com/x" }]).2.2.2.1 (by decide)⟩

/-- `dlookup` on a cons cell. -/
theorem dlookup_cons {α : Type} (p : String × α) (ps : List (String × α))
    (k : String) :
    dlookup (p :: ps) k = if p.1 = k then some p.2 else dlookup ps k := by
  unfold dlookup
  by_cases hp : p.1 = k
  · rw [List.find?_cons_of_pos _ (by simp [hp]), if_pos hp]
    rfl
  · rw [List.find?_cons_of_neg _ (by simp [hp]), if_neg hp]

/-- `dlookup` distributes over append. -/
theorem dlookup_append {α : Type} (l1 l2 : List (String × α)) (k : String) :
    dlookup (l1 ++ l2) k = (dlookup l1 k).or (dlookup l2 k) := by
  induction l1 with
  | nil => rfl
  | cons p ps ih =>
    rw [List.cons_append, dlookup_cons, dlookup_cons]
    by_cases hp : p.1 = k
    · rw [if_pos hp, if_pos hp]
      rfl
    · rw [if_neg hp, if_neg hp]
      exact ih

/-- Replacing the `k`-entries does not change other keys. -/
theorem dlookup_map_replace_ne {α : Type} (k k' : String) (v : α)
    (h : k' ≠ k) (l : List (String × α)) :
    dlookup (l.map (fun p => if p.1 = k then (k, v) else p)) k' =
      dlookup l k' := by
  induction l with
  | nil => rfl
  | cons p ps ih =>
    rw [List.map_cons, dlookup_cons, dlookup_cons]
    by_cases hp : p.1 = k
    · rw [if_pos hp]
      rw [if_neg (show ¬ ((k, v) : String × α).1 = k' from
          fun hh => h hh.symm),
        if_neg (show ¬ p.1 = k' from fun hh => h (hh ▸ hp))]
      exact ih
    · rw [if_neg hp]
      by_cases hp' : p.1 = k'
      · rw [if_pos hp', if_pos hp']
      · rw [if_neg hp', if_neg hp']
        exact ih

/-- Looking the replaced key up finds the new value, provided the key
occurs. -/
theorem dlookup_map_replace_self {α : Type} (k : String) (v : α) :
    ∀ l : List (String × α), l.any (fun p => p.1 = k) →
      dlookup (l.map (fun p => if p.1 = k then (k, v) else p)) k =
        some v := by
  intro l
  induction l with
  | nil => intro h; simp at h
  | cons p ps ih =>
    intro hany
    rw [List.map_cons, dlookup_cons]
    by_cases hp : p.1 = k
    · rw [if_pos hp]
      simp
    · have h2 : ps.any (fun p => p.1 = k) := by
        rcases List.any_eq_true.mp hany with ⟨x, hx, hxk⟩
        rcases List.mem_cons.mp hx with he | hm
        · exact absurd (by rw [← he]; exact of_decide_eq_true hxk) hp
        · exact List.any_eq_true.mpr ⟨x, hm, hxk⟩
      rw [if_neg hp, if_neg hp]
      exact ih h2

/-- Dict update then lookup of the same key. -/
theorem dlookup_dinsert_self {α : Type} (l : List (String × α))
    (k : String) (v : α) :
    dlookup (dinsert l k v) k = some v := by
  unfold dinsert
  by_cases hany : l.any (fun p => p.1 = k)
  · rw [if_pos hany]
    exact dlookup_map_replace_self k v l hany
  · rw [if_neg hany, dlookup_append]
    have hnone : dlookup l k = none := by
      unfold dlookup
      rw [List.find?_eq_none.mpr]
      · rfl
      · intro x hx
        intro hxk
        exact hany (List.any_eq_true.mpr ⟨x, hx, hxk⟩)
    rw [hnone, dlookup_cons, if_pos rfl]
    rfl

/-- Dict update then lookup of a different key. -/
theorem dlookup_dinsert_ne {α : Type} (l : List (String × α))
    (k k' : String) (v : α) (h : k' ≠ k) :
    dlookup (dinsert l k v) k' = dlookup l k' := by
  unfold dinsert
  by_cases hany : l.any (fun p => p.1 = k)
  · rw [if_pos hany]
    exact dlookup_map_replace_ne k k' v h l
  · rw [if_neg hany, dlookup_append, dlookup_cons,
      if_neg (show ¬ ((k, v) : String × α).1 = k' from fun hh => h hh.symm)]
    cases dlookup l k' <;> rfl

/-- Folding `dinsert` keeps every already-present key present and makes
the key of every processed element present. -/
theorem foldl_dinsert_mem {α β : Type} (key : β → String) (f : β → α) :
    ∀ (es : List β) (acc : List (String × α)),
      (∀ k, dlookup acc k ≠ none →
        dlookup (es.foldl (fun a e => dinsert a (key e) (f e)) acc) k ≠
          none) ∧
      (∀ e ∈ es,
        dlookup (es.foldl (fun a e => dinsert a (key e) (f e)) acc)
          (key e) ≠ none) := by
  intro es
  induction es with
  | nil => exact fun acc => ⟨fun k h => h, by simp⟩
  | cons e es ih =>
    intro acc
    constructor
    · intro k h
      rw [List.foldl_cons]
      apply (ih _).1
      by_cases hk : k = key e
      · rw [hk, dlookup_dinsert_self]
        simp
      · rw [dlookup_dinsert_ne _ _ _ _ hk]
        exact h
    · intro x hx
      rw [List.foldl_cons]
      rcases List.mem_cons.mp hx with he | hm
      · rw [he]
        apply (ih _).1
        rw [dlookup_dinsert_self]
        simp
      · exact (ih _).2 x hm

/-- Every value reachable by lookup after folding `dinsert` either was
already in the accumulator or is `f e` stored under `key e` for some
processed element. -/
theorem foldl_dinsert_prop {α β : Type} (key : β → String) (f : β → α)
    (P : String → α → Prop) (hP : ∀ e, P (key e) (f e)) :
    ∀ (es : List β) (acc : List (String × α)),
      (∀ k rec, dlookup acc k = some rec → P k rec) →
      ∀ k rec,
        dlookup (es.foldl (fun a e => dinsert a (key e) (f e)) acc) k =
          some rec → P k rec := by
  intro es
  induction es with
  | nil => exact fun acc hacc => hacc
  | cons e es ih =>
    intro acc hacc
    have hacc2 : ∀ k rec,
        dlookup (dinsert acc (key e) (f e)) k = some rec → P k rec := by
      intro k rec h
      by_cases hk : k = key e
      · rw [hk, dlookup_dinsert_self] at h
        cases h
        exact hk ▸ hP e
      · rw [dlookup_dinsert_ne _ _ _ _ hk] at h
        exact hacc k rec h
    intro k rec h
    rw [List.foldl_cons] at h
    exact ih _ hacc2 k rec h

/-- C4 (amended): the neutral/30 fallback is generated at whole-query
granularity only. When the backend's batch reply fails (`None` /
empty), **every** submitted subject receives a fallback record with
`sentiment = "neutre"`, `confiance = 30`,
`methode_analyse = "fallback_basic"`; when the reply succeeds it is
parsed as-is, and a subject the reply omits (or whose block cannot be
matched back) simply gets **no** record for that backend — not a
fallback record, contrary to the claim (see the counterexample). -/
theorem C4_sentiment_fallback (marques sources : List Entite) :
    (¬ (marques = [] ∧ sources = []) →
      (∀ m ∈ marques, ∃ rec,
        dlookup (analyserSentimentBatch none marques sources).1 m.nom =
            some rec ∧
          rec.sentiment = "neutre" ∧ rec.confiance = 30 ∧
          rec.methode_analyse = "fallback_basic") ∧
      (∀ s ∈ sources, ∃ rec,
        dlookup (analyserSentimentBatch none marques sources).2 s.nom =
            some rec ∧
          rec.sentiment = "neutre" ∧ rec.confiance = 30 ∧
          rec.methode_analyse = "fallback_basic")) ∧
    (∀ r, analyserSentimentBatch (some r) marques sources =
      if marques = [] ∧ sources = [] then ([], [])
      else parserSentimentBatch r marques sources) := by
  constructor
  · intro hne
    have hred : analyserSentimentBatch none marques sources =
        (genererSentimentsFallbackMarques marques,
         genererSentimentsFallbackSources sources) := by
      unfold analyserSentimentBatch
      rw [if_neg hne]
    rw [hred]
    constructor
    · intro m hm
      have hmem := (foldl_dinsert_mem (fun e : Entite => e.nom)
        (fun e : Entite =>
          ({ sentiment := "neutre", confiance := 30,
             justification := "Analyse fallback pour marque",
             perception_business := "inconnue",
             niveau_recommandation := "neutre",
             methode_analyse := "fallback_basic",
             entite_originale := e.nom } : MarqueSentiment))
        marques []).2 m hm
      have hprop := foldl_dinsert_prop (fun e : Entite => e.nom)
        (fun e : Entite =>
          ({ sentiment := "neutre", confiance := 30,
             justification := "Analyse fallback pour marque",
             perception_business := "inconnue",
             niveau_recommandation := "neutre",
             methode_analyse := "fallback_basic",
             entite_originale := e.nom } : MarqueSentiment))
        (fun k rec => rec.sentiment = "neutre" ∧ rec.confiance = 30 ∧
          rec.methode_analyse = "fallback_basic")
        (fun e => ⟨rfl, rfl, rfl⟩) marques []
        (fun k rec h => by simp [dlookup] at h)
      rcases ho : dlookup (genererSentimentsFallbackMarques marques) m.nom
        with _ | rec
      · exact absurd ho hmem
      · exact ⟨rec, rfl, hprop m.nom rec ho⟩
    · intro s hs
      have hmem := (foldl_dinsert_mem (fun e : Entite => e.nom)
        (fun e : Entite =>
          ({ sentiment := "neutre", confiance := 30,
             justification := "Analyse fallback pour source",
             fiabilite_percue := "moyenne", niveau_autorite := "moyenne",
             methode_analyse := "fallback_basic",
             entite_originale := e.nom, url := e.url } : SourceSentiment))
        sources []).2 s hs
      have hprop := foldl_dinsert_prop (fun e : Entite => e.nom)
        (fun e : Entite =>
          ({ sentiment := "neutre", confiance := 30,
             justification := "Analyse fallback pour source",
             fiabilite_percue := "moyenne", niveau_autorite := "moyenne",
             methode_analyse := "fallback_basic",
             entite_originale := e.nom, url := e.url } : SourceSentiment))
        (fun k rec => rec.sentiment = "neutre" ∧ rec.confiance = 30 ∧
          rec.methode_analyse = "fallback_basic")
        (fun e => ⟨rfl, rfl, rfl⟩) sources []
        (fun k rec h => by simp [dlookup] at h)
      rcases ho : dlookup (genererSentimentsFallbackSources sources) s.nom
        with _ | rec
      · exact absurd ho hmem
      · exact ⟨rec, rfl, hprop s.nom rec ho⟩
  · intro r
    unfold analyserSentimentBatch
    by_cases hc : marques = [] ∧ sources = []
    · rw [if_pos hc]
    · rw [if_neg hc]


/-- C4 counterexample: the backend's sentiment query succeeds and its
reply parses, but it only covers `BankX` and omits `BankY`; the batch
result then carries a real record for `BankX` and **no** record at all
for `BankY` — not the neutral/30 fallback record the claim promises. -/
theorem C4_sentiment_contre_exemple :
    ((analyserSentimentBatch
        (some "🏢 ANALYSE MARQUES:\nMarque: BankX\nSentiment: positif\nConfiance: 80\nJustification: bonne image\n---\n")
        [{ nom := "BankX" }, { nom := "BankY" }] []).1.map
      (fun p => p.1) = ["BankX"]) ∧
    dlookup (analyserSentimentBatch
        (some "🏢 ANALYSE MARQUES:\nMarque: BankX\nSentiment: positif\nConfiance: 80\nJustification: bonne image\n---\n")
        [{ nom := "BankX" }, { nom := "BankY" }] []).1 "BankY" = none := by
  exact ⟨by decide, by decide⟩

/-- Witness for C4: with a failed query (`None` reply), a submitted
brand receives the fallback record. -/
theorem C4_sentiment_fallback_witness :
    ¬ (([({ nom := "BankX" } : Entite)] : List Entite) = [] ∧
        ([] : List Entite) = []) ∧
    (∃ rec,
      dlookup (analyserSentimentBatch none [{ nom := "BankX" }] []).1
          ({ nom := "BankX" } : Entite).nom = some rec ∧
        rec.sentiment = "neutre" ∧ rec.confiance = 30 ∧
        rec.methode_analyse = "fallback_basic") :=
  ⟨by decide,
    ((C4_sentiment_fallback [{ nom := "BankX" }] []).1 (by decide)).1
      { nom := "BankX" } (by decide)⟩

/-- C2 (amended): with zero successful responses
`analyser_question_complete` does **not** surface any error: it returns
the normal initialized result structure (raw responses recorded, every
consolidation stage left at its placeholder, `erreur_critique` unset).
No `NoBackendsResponded`-style failure exists in the code; conversely,
with at least one successful response the full pipeline runs and the
consolidated report is present. -/
theorem C2_zero_reponses (o : Oracles) (question contexte : String)
    (reponses : List (String × Option String)) :
    (reponses.filterMap
        (fun pr => if pr.2.isSome then some pr.1 else none) = [] →
      analyserQuestionComplete o question contexte reponses =
        { resultatsInitiaux question contexte with
            reponses_brutes := reponses, providers_utilises := [] }) ∧
    (analyserQuestionComplete o question contexte reponses).erreur_critique
      = none ∧
    (reponses.filterMap
        (fun pr => if pr.2.isSome then some pr.1 else none) ≠ [] →
      (analyserQuestionComplete o question contexte
        reponses).rapport_consolide ≠ none) := by
  refine ⟨fun h => ?_, ?_, fun h => ?_⟩
  · unfold analyserQuestionComplete
    simp only []
    rw [if_pos h, h]
  · unfold analyserQuestionComplete
    simp only []
    by_cases h : reponses.filterMap
        (fun pr => if pr.2.isSome then some pr.1 else none) = []
    · rw [if_pos h]
      rfl
    · rw [if_neg h]
      rfl
  · unfold analyserQuestionComplete
    simp only []
    rw [if_neg h]
    simp

/-- C2 counterexample: both backends fail; the orchestrator returns the
plain initialized structure — raw responses recorded, no consolidated
report, and no error of any kind (`erreur_critique = none`) — instead
of the terminal `NoBackendsResponded` error the claim asserts. -/
theorem C2_zero_reponses_contre_exemple :
    analyserQuestionComplete
        ⟨fun _ => [], fun _ => [], fun _ => [], fun _ _ _ => ([], [])⟩
        "q" "c" [("openai", none), ("anthropic", none)] =
      { resultatsInitiaux "q" "c" with
          reponses_brutes := [("openai", none), ("anthropic", none)] } ∧
    (analyserQuestionComplete
        ⟨fun _ => [], fun _ => [], fun _ => [], fun _ _ _ => ([], [])⟩
        "q" "c" [("openai", none), ("anthropic", none)]).erreur_critique
      = none ∧
    (analyserQuestionComplete
        ⟨fun _ => [], fun _ => [], fun _ => [], fun _ _ _ => ([], [])⟩
        "q" "c" [("openai", none), ("anthropic", none)]).rapport_consolide
      = none := by
  exact ⟨by decide, by decide, by decide⟩

/-- Witness for C2: one successful response makes the pipeline produce a
consolidated report. -/
theorem C2_zero_reponses_witness :
    ([("openai", some "hi")] : List (String × Option String)).filterMap
      (fun pr => if pr.2.isSome then some pr.1 else none) ≠ [] ∧
    (analyserQuestionComplete
        ⟨fun _ => [], fun _ => [], fun _ => [], fun _ _ _ => ([], [])⟩
        "q" "c" [("openai", some "hi")]).rapport_consolide ≠ none :=
  ⟨by decide,
    (C2_zero_reponses
        ⟨fun _ => [], fun _ => [], fun _ => [], fun _ _ _ => ([], [])⟩
        "q" "c" [("openai", some "hi")]).2.2 (by decide)⟩

/-- C9 counterexample: the same url reported by two backends with
different `nom` fields. Swapping the arrival order changes the
consolidated record's `nom` (every non-provider field is copied from the
first backend seen), so consolidation is **not** order-invariant on the
merged fields, contrary to the claim. -/
theorem C9_consolidation_contre_exemple :
    ([("openai",
        [({ nom := "Alpha", url := "https://u.com" } : Entite)]),
      ("anthropic",
        [({ nom := "Beta", url := "https://u.com" } : Entite)])].Perm
      [("anthropic",
        [({ nom := "Beta", url := "https://u.com" } : Entite)]),
       ("openai",
        [({ nom := "Alpha", url := "https://u.com" } : Entite)])]) ∧
    (consoliderEntites (fun e => e.url)
      [("openai", [{ nom := "Alpha", url := "https://u.com" }]),
       ("anthropic", [{ nom := "Beta", url := "https://u.com" }])]).map
        (fun e => e.nom) = ["Alpha"] ∧
    (consoliderEntites (fun e => e.url)
      [("anthropic", [{ nom := "Beta", url := "https://u.com" }]),
       ("openai", [{ nom := "Alpha", url := "https://u.com" }])]).map
        (fun e => e.nom) = ["Beta"] := by
  refine ⟨List.Perm.swap _ _ _, by decide, by decide⟩

/-- Witness for C9: on a concrete permuted pair of backend result lists,
the per-key provider lists are permutations of each other. -/
theorem C9_consolidation_permutation_witness :
    ("https://u.com" : String) ≠ "" ∧
    (providersOf (fun e => e.url)
        (consoliderEntites (fun e => e.url)
          [("openai", [{ url := "https://u.com" }]),
           ("anthropic", [{ url := "https://u.com" }])])
        "https://u.com").Perm
      (providersOf (fun e => e.url)
        (consoliderEntites (fun e => e.url)
          [("anthropic", [{ url := "https://u.com" }]),
           ("openai", [{ url := "https://u.com" }])])
        "https://u.com") :=
  ⟨by decide,
    (C9_consolidation_permutation (List.Perm.swap _ _ [])).2.1
      "https://u.com" (by decide)⟩
